import Mathlib

/-!
Verification of the echo-backend event broker (Go sources: `cache.go`,
`client.go`, `config.go`, `event.go`, and the Manager/Room implementation).

The Go code is shallowly embedded: maps become association lists, goroutine
side effects become explicit state passing, channels become an explicit
channel store, and `time.Now()` becomes an explicit `now : Nat` parameter.
Client identity (Go pointer identity) is modelled by a numeric id `cid`, and
room object identity by a numeric `token`.
-/

set_option maxHeartbeats 1000000

/-! ## Association lists (Go maps: one entry per key) -/

def lookA {α β : Type} [DecidableEq α] (k : α) : List (α × β) → Option β
  | [] => none
  | (k', v) :: rest => if k = k' then some v else lookA k rest

def setA {α β : Type} [DecidableEq α] (k : α) (v : β) : List (α × β) → List (α × β)
  | [] => [(k, v)]
  | (k', v') :: rest => if k = k' then (k, v) :: rest else (k', v') :: setA k v rest

def eraseA {α β : Type} [DecidableEq α] (k : α) : List (α × β) → List (α × β)
  | [] => []
  | (k', v') :: rest => if k = k' then rest else (k', v') :: eraseA k rest

theorem lookA_setA_self {α β : Type} [DecidableEq α] (k : α) (v : β) (l : List (α × β)) :
    lookA k (setA k v l) = some v := by
  induction l with
  | nil => simp [lookA, setA]
  | cons p rest ih =>
    by_cases h : k = p.1
    · simp [lookA, setA, h]
    · simp [lookA, setA, h, ih]

theorem lookA_setA_ne {α β : Type} [DecidableEq α] {k k' : α} (v : β) (l : List (α × β))
    (h : k ≠ k') : lookA k (setA k' v l) = lookA k l := by
  induction l with
  | nil => simp [lookA, setA, h]
  | cons p rest ih =>
    obtain ⟨k1, v1⟩ := p
    by_cases h2 : k' = k1
    · subst h2
      simp [lookA, setA, h]
    · by_cases h3 : k = k1 <;> simp [lookA, setA, h2, h3, ih]

theorem lookA_mem {α β : Type} [DecidableEq α] {k : α} {v : β} {l : List (α × β)}
    (h : lookA k l = some v) : (k, v) ∈ l := by
  induction l with
  | nil => simp [lookA] at h
  | cons p rest ih =>
    obtain ⟨k', v'⟩ := p
    by_cases h2 : k = k'
    · subst h2
      simp [lookA] at h
      subst h
      exact List.mem_cons_self _ _
    · simp [lookA, h2] at h
      exact List.mem_cons_of_mem _ (ih h)

theorem mem_setA {α β : Type} [DecidableEq α] {k : α} {v : β} {p : α × β} {l : List (α × β)}
    (h : p ∈ setA k v l) : p = (k, v) ∨ p ∈ l := by
  induction l with
  | nil => simp [setA] at h; exact Or.inl h
  | cons q rest ih =>
    obtain ⟨k', v'⟩ := q
    by_cases h2 : k = k'
    · subst h2
      simp only [setA, if_pos rfl] at h
      rcases List.mem_cons.mp h with h | h
      · exact Or.inl h
      · exact Or.inr (List.mem_cons_of_mem _ h)
    · simp only [setA, if_neg h2] at h
      rcases List.mem_cons.mp h with h | h
      · exact Or.inr (by simp [h])
      · rcases ih h with h3 | h3
        · exact Or.inl h3
        · exact Or.inr (List.mem_cons_of_mem _ h3)

theorem mem_eraseA {α β : Type} [DecidableEq α] {k : α} {p : α × β} {l : List (α × β)}
    (h : p ∈ eraseA k l) : p ∈ l := by
  induction l with
  | nil => simp [eraseA] at h
  | cons q rest ih =>
    obtain ⟨k', v'⟩ := q
    by_cases h2 : k = k'
    · subst h2
      simp only [eraseA, if_pos rfl] at h
      exact List.mem_cons_of_mem _ h
    · simp only [eraseA, if_neg h2] at h
      rcases List.mem_cons.mp h with h | h
      · simp [h]
      · exact List.mem_cons_of_mem _ (ih h)

/-! ## Wire data model (`event.go`, `config.go`)

`Event.Payload` is an opaque JSON object parsed field-wise by handlers; it is
modelled as a flat record of the fields the handlers read or write, plus an
opaque `raw` component for snapshot bytes.  The server-assigned `Timestamp`
is irrelevant to every claim and is omitted. -/

structure Payload where
  room_id : String := ""
  action : String := ""
  code : String := ""
  message : String := ""
  status : String := ""
  role : String := ""
  in_room : Bool := false
  watch_connected : Bool := false
  mac_disconnected : Bool := false
  device_type : String := ""
  raw : String := ""
deriving DecidableEq

structure Event where
  type : String := ""
  roomID : String := ""
  deviceID : String := ""
  requestID : String := ""
  payload : Payload := {}
deriving DecidableEq

def EventConnect : String := "connect"
def EventCreateRoom : String := "create_room"
def EventJoinRoom : String := "join_room"
def EventRoomJoined : String := "room_joined"
def EventRoomStatus : String := "room_status"
def EventDeviceInfo : String := "device_info"
def EventBatteryUpdate : String := "battery_update"
def EventDownloadsUpdate : String := "downloads_update"
def EventStorageUpdate : String := "storage_update"
def EventActionRequest : String := "action_request"
def EventActionResult : String := "action_result"
def EventMediaAction : String := "media_action"
def EventRequest : String := "request"
def EventResponse : String := "response"
def EventError : String := "error"
def EventPeerConnected : String := "peer_connected"
def EventPeerDisconnected : String := "peer_disconnected"
def EventStatusUpdate : String := "status_update"

def DeviceTypeMac : String := "mac"
def DeviceTypeWatch : String := "watch"

/-- Tunable constants from `config.go` (durations in seconds). -/
def requestTimeout : Nat := 30
def cacheTTL : Nat := 300
def batteryTTL : Nat := 30
def downloadsTTL : Nat := 10
def deviceInfoTTL : Nat := 24 * 3600

/-! ## Client session (`client.go`)

`CState` is the mutable state of one `Client`: its bounded egress buffer
(capacity 64), the `done` flag (closed by `closeConn`), and the list of
events actually written to the websocket by the write loop (`transport`).
The immutable identity fields (`deviceID`, `deviceType`, and the pointer
identity `cid`) live in `CRef`. -/

structure CRef where
  cid : Nat
  deviceID : String
  deviceType : String
deriving DecidableEq

structure CState where
  egress : List Event := []
  done : Bool := false
  transport : List Event := []
deriving DecidableEq

def egressCap : Nat := 64

/-- `Client.send` (client.go lines 203-216): if `done` is closed the event is
dropped; otherwise a non-blocking enqueue that drops when the buffer holds
`egressCap` events.  Always returns (never blocks). -/
def csend (c : CState) (ev : Event) : CState :=
  if c.done then c
  else if c.egress.length < egressCap then { c with egress := c.egress ++ [ev] } else c

/-- `Client.closeConn` (client.go lines 229-250): idempotent shutdown; the
`closeOnce` body closes `done`, the websocket and the egress channel. -/
def closeConn (c : CState) : CState := { c with done := true }

/-- One step of the write loop (`writeMessages`): dequeue the head of the
egress buffer and write it to the transport.  (The Go select may race the
`done` branch against a non-empty buffer; delivering is one of the allowed
resolutions, so delivered events are always drawn from the egress buffer.) -/
def writerStep (c : CState) : CState :=
  match c.egress with
  | [] => c
  | e :: rest => { c with egress := rest, transport := c.transport ++ [e] }

/-! ## RoomCache (`cache.go`)

`time.Since(entry.UpdatedAt) > entry.TTL` becomes `now - updatedAt > ttl`
over `Nat` (Go durations are non-negative here). -/

structure CacheEntry where
  data : Payload
  updatedAt : Nat
  ttl : Nat
deriving DecidableEq

def Cache := List (String × CacheEntry)

instance : DecidableEq Cache := by unfold Cache; infer_instance

/-- `RoomCache.Set` (cache.go lines 26-34): overwrite entry, timestamp = now. -/
def cacheSet (key : String) (data : Payload) (ttl : Nat) (now : Nat) (rc : Cache) : Cache :=
  setA key { data := data, updatedAt := now, ttl := ttl } rc

/-- `RoomCache.Get` (cache.go lines 36-51): miss when absent; when expired
(`now - updatedAt > ttl`) remove the entry and miss; otherwise hit. -/
def cacheGet (now : Nat) (key : String) (rc : Cache) : Option Payload × Cache :=
  match lookA key rc with
  | none => (none, rc)
  | some entry =>
    if now - entry.updatedAt > entry.ttl then (none, eraseA key rc)
    else (some entry.data, rc)

/-! ## Channels

A Go `chan Event` of capacity 1 (the single-shot response channels in the
pending table). -/

inductive ChanSt where
  | openEmpty
  | openFull (e : Event)
  | closedEmpty
  | closedFull (e : Event)
deriving DecidableEq

def ChanSt.isClosed : ChanSt → Bool
  | .openEmpty => false
  | .openFull _ => false
  | .closedEmpty => true
  | .closedFull _ => true

/-! ## Room and Manager state

`roomObjs` is the heap of `Room` objects keyed by identity token (Go room
pointers stay alive through back-references even after the registry entry is
deleted).  `registry` is `Manager.rooms`.  `backref` is each client's
`c.room` pointer, `sessions` each client's egress/done state, `chans` the
store of live response channels. -/

structure Room where
  token : Nat
  id : String
  macID : String
  clients : List (String × CRef)
  cache : Cache
  pending : List (String × Nat)
  isActive : Bool
deriving DecidableEq

structure MState where
  registry : List (String × Nat) := []
  roomObjs : List (Nat × Room) := []
  chans : List (Nat × ChanSt) := []
  nextChan : Nat := 0
  nextToken : Nat := 0
  backref : List (Nat × Nat) := []
  sessions : List (Nat × CState) := []
deriving DecidableEq

def initState : MState := {}

/-- `Client.send` lifted to the manager state (no-op for unknown cids). -/
def msend (s : MState) (cid : Nat) (ev : Event) : MState :=
  { s with sessions := match lookA cid s.sessions with
                       | none => s.sessions
                       | some st => setA cid (csend st ev) s.sessions }

/-- `Client.closeConn` lifted to the manager state. -/
def mcloseConn (s : MState) (cid : Nat) : MState :=
  { s with sessions := match lookA cid s.sessions with
                       | none => s.sessions
                       | some st => setA cid (closeConn st) s.sessions }

/-- `Client.sendError` (client.go lines 218-227). -/
def errEvent (reqID code msg : String) : Event :=
  { type := EventError, requestID := reqID, payload := { code := code, message := msg } }

def sendErrorTo (s : MState) (cid : Nat) (reqID code msg : String) : MState :=
  msend s cid (errEvent reqID code msg)

def sendList (s : MState) (ts : List (String × CRef)) (ev : Event) : MState :=
  ts.foldl (fun acc p => msend acc p.2.cid ev) s

/-- `Room.getPeer`: first member with the given device type. -/
def Room.getPeer (r : Room) (dt : String) : Option CRef :=
  (r.clients.find? (fun p => p.2.deviceType == dt)).map (fun p => p.2)

/-- `Room.broadcastExcept` / `broadcastExceptLocked`: send to every member
except the excluded device id. -/
def broadcastExcept (s : MState) (tok : Nat) (exclude : String) (ev : Event) : MState :=
  match lookA tok s.roomObjs with
  | none => s
  | some r => sendList s (r.clients.filter (fun p => p.1 ≠ exclude)) ev

def peerConnEvent (rid : String) (c : CRef) : Event :=
  { type := EventPeerConnected, roomID := rid, deviceID := c.deviceID,
    payload := { device_type := c.deviceType } }

/-- `Room.addClient` (part_002 lines 1684-1713): replace any prior entry for
the same device id, set the back-reference, shut the displaced client down
only when it is a different object, then broadcast `peer_connected` to the
other members. -/
def roomAddClient (s : MState) (tok : Nat) (c : CRef) : MState :=
  match lookA tok s.roomObjs with
  | none => s
  | some r =>
    let prior := lookA c.deviceID r.clients
    let s1 := { s with roomObjs := setA tok { r with clients := setA c.deviceID c r.clients } s.roomObjs,
                       backref := setA c.cid tok s.backref }
    let s2 := match prior with
              | some p => if p.cid ≠ c.cid then mcloseConn s1 p.cid else s1
              | none => s1
    broadcastExcept s2 tok c.deviceID (peerConnEvent r.id c)

/-- The `select`-receive-or-close applied to each pending channel when the
host departs (part_002 lines 1748-1754): a buffered value is received
(leaving the channel open), otherwise the channel is closed. -/
def drainOne : ChanSt → ChanSt
  | .openEmpty => .closedEmpty
  | .openFull _ => .openEmpty
  | .closedEmpty => .closedEmpty
  | .closedFull _ => .closedEmpty

def drainChans (pending : List (String × Nat)) (cs : List (Nat × ChanSt)) :
    List (Nat × ChanSt) :=
  pending.foldl (fun acc p =>
    match lookA p.2 acc with
    | none => acc
    | some st => setA p.2 (drainOne st) acc) cs

def peerDiscEvent (rid did dt : String) : Event :=
  { type := EventPeerDisconnected, roomID := rid, deviceID := did,
    payload := { device_type := dt } }

def sendPairList (s : MState) (ts : List (String × CRef)) (e1 e2 : Event) : MState :=
  ts.foldl (fun acc p => msend (msend acc p.2.cid e1) p.2.cid e2) s

/-- `Room.removeClient` (part_002 lines 1715-1828).  Removes the entry only
when the registered client for `c.deviceID` is the very object `c`; on a
host departure it drains the pending table, deactivates the room and sends
`peer_disconnected` + `status_update` to each remaining member; on a peer
departure it sends `peer_disconnected` to the remainder and a
`status_update` to the host if present.  (The Go peer branch calls
`r.getPeer` while holding `r.mu`, which would self-deadlock a sync.RWMutex;
the model reflects the evident intent of that branch.) -/
def roomRemoveClient (s : MState) (tok : Nat) (c : CRef) : MState :=
  match lookA tok s.roomObjs with
  | none => s
  | some r =>
    match lookA c.deviceID r.clients with
    | none => s
    | some existing =>
      if existing.cid ≠ c.cid then s
      else
        let isMac := c.deviceID == r.macID
        let remaining := eraseA c.deviceID r.clients
        let r1 := if isMac then
                    { r with clients := remaining, pending := [], isActive := false }
                  else { r with clients := remaining }
        let s1 := { s with roomObjs := setA tok r1 s.roomObjs,
                           backref := eraseA c.cid s.backref,
                           chans := if isMac then drainChans r.pending s.chans else s.chans }
        if isMac then
          sendPairList s1 remaining (peerDiscEvent r.id c.deviceID c.deviceType)
            { type := EventStatusUpdate, roomID := r.id,
              payload := { in_room := false, mac_disconnected := true } }
        else
          let s2 := sendList s1 remaining (peerDiscEvent r.id c.deviceID c.deviceType)
          match r1.getPeer DeviceTypeMac with
          | none => s2
          | some mac =>
            let wc := remaining.any (fun p => p.2.deviceType == DeviceTypeWatch)
            msend s2 mac.cid { type := EventStatusUpdate, roomID := r.id,
                               payload := { in_room := true, watch_connected := wc } }

/-- `Room.waitForResponse` (part_002 lines 1856-1863): register a fresh
capacity-1 channel under the request id.  Returns the channel id. -/
def waitForResponse (s : MState) (tok : Nat) (q : String) : MState × Nat :=
  let ch := s.nextChan
  ({ s with chans := setA ch ChanSt.openEmpty s.chans,
            nextChan := ch + 1,
            roomObjs := match lookA tok s.roomObjs with
                        | none => s.roomObjs
                        | some r => setA tok { r with pending := setA q ch r.pending } s.roomObjs },
   ch)

/-- Channel effect of `Room.fulfillResponse`: non-blocking offer then close.
(The closed cases would panic in Go; they are unreachable because an entry
is removed from the pending table whenever its channel is closed.) -/
def fulfillOne : ChanSt → Event → ChanSt
  | .openEmpty, ev => .closedFull ev
  | .openFull e, _ => .closedFull e
  | .closedEmpty, _ => .closedEmpty
  | .closedFull e, _ => .closedFull e

/-- `Room.fulfillResponse` (part_002 lines 1865-1890): remove the pending
entry, offer the event without blocking, close the channel. -/
def fulfillResponse (s : MState) (tok : Nat) (ev : Event) : MState × Bool :=
  if ev.requestID = "" then (s, false)
  else
    match lookA tok s.roomObjs with
    | none => (s, false)
    | some r =>
      match lookA ev.requestID r.pending with
      | none => (s, false)
      | some ch =>
        ({ s with roomObjs := setA tok { r with pending := eraseA ev.requestID r.pending } s.roomObjs,
                  chans := match lookA ch s.chans with
                           | none => s.chans
                           | some st => setA ch (fulfillOne st ev) s.chans }, true)

/-! ## Manager (part_002 lines 22-92) -/

/-- `Manager.getRoom` (lines 47-56): absent or inactive rooms report
`(nil, false)`. -/
def getRoomM (s : MState) (rid : String) : Option (Nat × Room) :=
  match lookA rid s.registry with
  | none => none
  | some tok =>
    match lookA tok s.roomObjs with
    | none => none
    | some r => if r.isActive then some (tok, r) else none

/-- `Manager.createRoom` (lines 37-45). -/
def createRoom (s : MState) (rid macID : String) : MState × Nat :=
  let tok := s.nextToken
  ({ s with registry := setA rid tok s.registry,
            roomObjs := setA tok { token := tok, id := rid, macID := macID, clients := [],
                                   cache := [], pending := [], isActive := true } s.roomObjs,
            nextToken := tok + 1 }, tok)

/-- The `c.room` dereference used by the event handlers. -/
def clientRoomOf (s : MState) (c : CRef) : Option (Nat × Room) :=
  match lookA c.cid s.backref with
  | none => none
  | some tok => (lookA tok s.roomObjs).map (fun r => (tok, r))

/-- `Manager.removeClient` (lines 58-92): remove from the back-referenced
room, then delete the registry entry for that room's id when the room is
empty or inactive. -/
def managerRemoveClient (s : MState) (c : CRef) : MState :=
  match lookA c.cid s.backref with
  | none => s
  | some tok =>
    let s1 := roomRemoveClient s tok c
    match lookA tok s1.roomObjs with
    | none => s1
    | some r =>
      if r.clients.length = 0 ∨ r.isActive = false then
        { s1 with registry := eraseA r.id s1.registry }
      else s1

/-! ## Event handlers (part_002 lines 94-597)

Each handler returns the new state and the `error` return value of the Go
handler (`some msg` ↔ a non-nil error).  Payload JSON parsing is modelled as
always succeeding, since inbound payloads are structured records here. -/

/-- `Manager.handleCreateRoom` (lines 95-162). -/
def handleCreateRoom (s : MState) (ev : Event) (c : CRef) : MState × Option String :=
  if c.deviceType ≠ DeviceTypeMac then (s, some "only Mac devices can create rooms")
  else
    match getRoomM s ev.payload.room_id with
    | some (tok, r) =>
      if r.macID == c.deviceID then
        -- reactivate (a no-op: getRoom only returns active rooms), re-add,
        -- immediate status_update, then room_joined{rejoined,host}
        let s1 := { s with roomObjs := setA tok { r with isActive := true } s.roomObjs }
        let s2 := roomAddClient s1 tok c
        let wc := match lookA tok s2.roomObjs with
                  | some r2 => (r2.getPeer DeviceTypeWatch).isSome
                  | none => false
        let s3 := msend s2 c.cid { type := EventStatusUpdate, roomID := r.id,
                                   payload := { in_room := true, watch_connected := wc } }
        (msend s3 c.cid { type := EventRoomJoined, roomID := r.id,
                          payload := { status := "rejoined", role := "host" } }, none)
      else (s, some "room already exists")
    | none =>
      let (s1, tok) := createRoom s ev.payload.room_id c.deviceID
      let s2 := roomAddClient s1 tok c
      let s3 := msend s2 c.cid { type := EventStatusUpdate, roomID := ev.payload.room_id,
                                 payload := { in_room := true, watch_connected := false } }
      (msend s3 c.cid { type := EventRoomJoined, roomID := ev.payload.room_id,
                        payload := { status := "created", role := "host" } }, none)

/-- `RoomCache.Get` on a room held in the manager state (the lazy expiry
mutates the room's cache). -/
def roomCacheGet (s : MState) (tok : Nat) (key : String) (now : Nat) :
    Option Payload × MState :=
  match lookA tok s.roomObjs with
  | none => (none, s)
  | some r =>
    let res := cacheGet now key r.cache
    (res.1, { s with roomObjs := setA tok { r with cache := res.2 } s.roomObjs })

/-- `RoomCache.Set` on a room held in the manager state. -/
def roomCacheSet (s : MState) (tok : Nat) (key : String) (data : Payload)
    (ttl now : Nat) : MState :=
  match lookA tok s.roomObjs with
  | none => s
  | some r =>
    { s with roomObjs := setA tok { r with cache := cacheSet key data ttl now r.cache } s.roomObjs }

/-- One key of `Manager.sendCachedData` (lines 205-222). -/
def sendCachedOne (s : MState) (tok : Nat) (c : CRef) (now : Nat)
    (key evType rid : String) : MState :=
  match roomCacheGet s tok key now with
  | (some data, s1) => msend s1 c.cid { type := evType, roomID := rid, payload := data }
  | (none, s1) => s1

/-- `Manager.sendCachedData` (lines 205-222): for a watch, send each present
cached snapshot in the fixed key order. -/
def sendCachedData (s : MState) (tok : Nat) (c : CRef) (now : Nat) (rid : String) : MState :=
  if c.deviceType == DeviceTypeWatch then
    let s1 := sendCachedOne s tok c now "device_info" EventDeviceInfo rid
    let s2 := sendCachedOne s1 tok c now "battery" EventBatteryUpdate rid
    let s3 := sendCachedOne s2 tok c now "storage" EventStorageUpdate rid
    sendCachedOne s3 tok c now "downloads" EventDownloadsUpdate rid
  else s

/-- `Manager.handleJoinRoom` (lines 164-203). -/
def handleJoinRoom (s : MState) (ev : Event) (c : CRef) (now : Nat) : MState × Option String :=
  match getRoomM s ev.payload.room_id with
  | none => (s, some "room not found or inactive")
  | some (tok, r) =>
    if c.deviceType == DeviceTypeMac ∧ (r.getPeer DeviceTypeMac).isSome then
      (s, some "room already has a Mac device")
    else
      let s1 := roomAddClient s tok c
      let s2 := sendCachedData s1 tok c now r.id
      let s3 := msend s2 c.cid { type := EventRoomJoined, roomID := r.id,
                                 payload := { status := "joined", role := "client" } }
      if c.deviceType == DeviceTypeWatch then
        match (match lookA tok s3.roomObjs with
               | some r3 => r3.getPeer DeviceTypeMac
               | none => none) with
        | some mac =>
          (msend s3 mac.cid { type := EventStatusUpdate, roomID := r.id,
                              payload := { in_room := true, watch_connected := true } }, none)
        | none => (s3, none)
      else (s3, none)

/-- `Manager.handleDeviceInfo` (lines 224-248): silently ignored outside a
room; host-only; cache then broadcast. -/
def handleDeviceInfo (s : MState) (ev : Event) (c : CRef) (now : Nat) : MState × Option String :=
  match clientRoomOf s c with
  | none => (s, none)
  | some (tok, r) =>
    if c.deviceType ≠ DeviceTypeMac then (s, some "only Mac devices can send device info")
    else
      let s1 := roomCacheSet s tok "device_info" ev.payload deviceInfoTTL now
      (broadcastExcept s1 tok c.deviceID
        { type := EventDeviceInfo, roomID := r.id, deviceID := c.deviceID,
          payload := ev.payload }, none)

/-- `Manager.handleBatteryUpdate` (lines 250-268). -/
def handleBatteryUpdate (s : MState) (ev : Event) (c : CRef) (now : Nat) : MState × Option String :=
  match clientRoomOf s c with
  | none => (s, none)
  | some (tok, r) =>
    let s1 := roomCacheSet s tok "battery" ev.payload batteryTTL now
    (broadcastExcept s1 tok c.deviceID
      { type := EventBatteryUpdate, roomID := r.id, deviceID := c.deviceID,
        payload := ev.payload }, none)

/-- `Manager.handleStorageUpdate` (lines 270-288). -/
def handleStorageUpdate (s : MState) (ev : Event) (c : CRef) (now : Nat) : MState × Option String :=
  match clientRoomOf s c with
  | none => (s, none)
  | some (tok, r) =>
    let s1 := roomCacheSet s tok "storage" ev.payload cacheTTL now
    (broadcastExcept s1 tok c.deviceID
      { type := EventStorageUpdate, roomID := r.id, deviceID := c.deviceID,
        payload := ev.payload }, none)

/-- `Manager.handleDownloadsUpdate` (lines 290-308). -/
def handleDownloadsUpdate (s : MState) (ev : Event) (c : CRef) (now : Nat) : MState × Option String :=
  match clientRoomOf s c with
  | none => (s, none)
  | some (tok, r) =>
    let s1 := roomCacheSet s tok "downloads" ev.payload downloadsTTL now
    (broadcastExcept s1 tok c.deviceID
      { type := EventDownloadsUpdate, roomID := r.id, deviceID := c.deviceID,
        payload := ev.payload }, none)

def validMediaActions : List String :=
  ["play", "pause", "volup", "voldown", "next", "prev", "volumeup", "volumedown"]

/-- `Manager.handleMediaAction` (lines 309-346): watch-only; validate the
action; forward to the host carrying the original request id, registering no
waiter; `error{mac_unavailable}` if the host is absent. -/
def handleMediaAction (s : MState) (ev : Event) (c : CRef) : MState × Option String :=
  match clientRoomOf s c with
  | none => (s, some "not in a room")
  | some (_tok, r) =>
    if c.deviceType ≠ DeviceTypeWatch then (s, some "only Watch devices can request media actions")
    else if ¬ validMediaActions.contains ev.payload.action then (s, some "invalid media action")
    else
      match r.getPeer DeviceTypeMac with
      | none => (sendErrorTo s c.cid ev.requestID "mac_unavailable" "Mac device not connected", none)
      | some mac =>
        (msend s mac.cid { type := EventMediaAction, roomID := r.id, deviceID := c.deviceID,
                           requestID := ev.requestID, payload := ev.payload }, none)

/-- `Manager.handleActionRequest` (lines 347-428), synchronous part: the
spawned waiter goroutine is the separate `actionWaiterRun` step. -/
def handleActionRequest (s : MState) (ev : Event) (c : CRef) : MState × Option String :=
  match clientRoomOf s c with
  | none => (s, some "not in a room")
  | some (tok, r) =>
    if c.deviceType ≠ DeviceTypeWatch then (s, some "only Watch devices can request actions")
    else if ev.payload.action ≠ "shutdown" ∧ ev.payload.action ≠ "sleep" then
      (s, some "invalid action")
    else
      match r.getPeer DeviceTypeMac with
      | none => (sendErrorTo s c.cid ev.requestID "mac_unavailable" "Mac device not connected", none)
      | some mac =>
        if ev.requestID ≠ "" then
          let s1 := (waitForResponse s tok ev.requestID).1
          (msend s1 mac.cid { type := EventActionRequest, roomID := r.id, deviceID := c.deviceID,
                              requestID := ev.requestID, payload := ev.payload }, none)
        else
          (msend s mac.cid { type := EventActionRequest, roomID := r.id, deviceID := c.deviceID,
                             payload := ev.payload }, none)

/-- `Manager.handleActionResult` (lines 430-443). -/
def handleActionResult (s : MState) (ev : Event) (c : CRef) : MState × Option String :=
  match clientRoomOf s c with
  | none => (s, some "not in a room")
  | some (tok, _r) =>
    if c.deviceType ≠ DeviceTypeMac then (s, some "only Mac devices can send action results")
    else ((fulfillResponse s tok ev).1, none)

/-- `Manager.handleRoomStatus` (lines 445-463). -/
def handleRoomStatus (s : MState) (c : CRef) : MState × Option String :=
  match clientRoomOf s c with
  | none => (msend s c.cid { type := EventResponse, payload := { status := "false" } }, none)
  | some _ => (msend s c.cid { type := EventResponse, payload := { status := "true" } }, none)

/-- `Manager.handleGenericRequest` (lines 464-546), synchronous part: cache
fast path for `get_device_info`/`get_battery`, otherwise forward the event
unchanged to the opposite-role peer and register a waiter (the spawned
goroutine is the separate `genericWaiterRun` step). -/
def handleGenericRequest (s : MState) (ev : Event) (c : CRef) (now : Nat) :
    MState × Option String :=
  match clientRoomOf s c with
  | none => (s, some "not in a room")
  | some (tok, r) =>
    if ev.requestID = "" then (s, some "missing request_id")
    else
      let probe : Option String := match ev.payload.action with
                                   | "get_device_info" => some "device_info"
                                   | "get_battery" => some "battery"
                                   | _ => none
      let hs : Option Payload × MState := match probe with
                                          | none => (none, s)
                                          | some key => roomCacheGet s tok key now
      match hs with
      | (some data, s1) =>
        (msend s1 c.cid { type := EventResponse, requestID := ev.requestID, roomID := r.id,
                          payload := data }, none)
      | (none, s1) =>
        let target := if c.deviceType == DeviceTypeWatch then r.getPeer DeviceTypeMac
                      else r.getPeer DeviceTypeWatch
        match target with
        | none => (sendErrorTo s1 c.cid ev.requestID "peer_unavailable" "Target device not connected", none)
        | some t =>
          let s2 := (waitForResponse s1 tok ev.requestID).1
          (msend s2 t.cid ev, none)

/-- `Manager.handleResponse` (lines 548-555). -/
def handleResponse (s : MState) (ev : Event) (c : CRef) : MState × Option String :=
  match clientRoomOf s c with
  | none => (s, some "not in a room")
  | some (tok, _r) => ((fulfillResponse s tok ev).1, none)

/-- `Manager.routeEvent` (lines 557-597). -/
def routeEvent (s : MState) (ev : Event) (c : CRef) (now : Nat) : MState × Option String :=
  if ev.type == EventRoomStatus then handleRoomStatus s c
  else if ev.type == EventCreateRoom then handleCreateRoom s ev c
  else if ev.type == EventJoinRoom then handleJoinRoom s ev c now
  else if ev.type == EventDeviceInfo then handleDeviceInfo s ev c now
  else if ev.type == EventBatteryUpdate then handleBatteryUpdate s ev c now
  else if ev.type == EventStorageUpdate then handleStorageUpdate s ev c now
  else if ev.type == EventDownloadsUpdate then handleDownloadsUpdate s ev c now
  else if ev.type == EventActionRequest then handleActionRequest s ev c
  else if ev.type == EventMediaAction then handleMediaAction s ev c
  else if ev.type == EventActionResult then handleActionResult s ev c
  else if ev.type == EventRequest then handleGenericRequest s ev c now
  else if ev.type == EventResponse then handleResponse s ev c
  else (s, some ("unknown event type: " ++ ev.type))

/-! ## Waiter goroutines

`handleActionRequest` and `handleGenericRequest` spawn a goroutine that
selects between the response channel and a 30 s timer.  Each run models the
resolution of that select, given the channel's state when it resolves:
a buffered value is received and relayed; a channel closed without a value
yields `ok = false` and the goroutine exits silently; an untouched open
channel means only the timer can fire, producing `error{timeout}`. -/

/-- Waiter spawned by `handleActionRequest` (lines 392-415).  `rid` is the
captured `c.room.id`, `reqID` the captured `ev.RequestID`. -/
def actionWaiterRun (s : MState) (cid ch : Nat) (rid reqID : String) : MState :=
  match lookA ch s.chans with
  | some (.closedFull resp) =>
    msend { s with chans := setA ch ChanSt.closedEmpty s.chans } cid
      { type := EventActionResult, requestID := resp.requestID, roomID := rid,
        payload := resp.payload }
  | some (.openFull resp) =>
    msend { s with chans := setA ch ChanSt.openEmpty s.chans } cid
      { type := EventActionResult, requestID := resp.requestID, roomID := rid,
        payload := resp.payload }
  | some .closedEmpty => s
  | some .openEmpty => sendErrorTo s cid reqID "timeout" "Mac did not respond in time"
  | none => s

/-- Waiter spawned by `handleGenericRequest` (lines 520-543); additionally
re-checks `c.room != nil` before relaying. -/
def genericWaiterRun (s : MState) (c : CRef) (ch : Nat) (reqID : String) : MState :=
  match lookA ch s.chans with
  | some (.closedFull resp) =>
    let s1 := { s with chans := setA ch ChanSt.closedEmpty s.chans }
    (match clientRoomOf s1 c with
     | some (_, r) =>
       msend s1 c.cid { type := EventResponse, requestID := resp.requestID, roomID := r.id,
                        payload := resp.payload }
     | none => s1)
  | some (.openFull resp) =>
    let s1 := { s with chans := setA ch ChanSt.openEmpty s.chans }
    (match clientRoomOf s1 c with
     | some (_, r) =>
       msend s1 c.cid { type := EventResponse, requestID := resp.requestID, roomID := r.id,
                        payload := resp.payload }
     | none => s1)
  | some .closedEmpty => s
  | some .openEmpty => sendErrorTo s c.cid reqID "timeout" "Peer did not respond in time"
  | none => s

/-! ## The system step relation

One label per concurrent activity that mutates shared state: connection
admission (`serveWs`), an inbound frame routed by the read loop (which sends
`error{routing_error}` back on a handler error, client.go line 98), a
disconnect (`Manager.removeClient`), the status pinger tick, a write-loop
step, and the two waiter goroutines. -/

/-- `serveWs` admission (part_002 lines 599-674): a fresh session plus the
initial `connect` event. -/
def connectClient (s : MState) (c : CRef) : MState :=
  msend { s with sessions := setA c.cid {} s.sessions } c.cid { type := EventConnect }

/-- One tick of `startStatusPinger` (client.go lines 252-307), Macs only. -/
def statusPingerTick (s : MState) (c : CRef) : MState :=
  if c.deviceType ≠ DeviceTypeMac then s
  else
    match clientRoomOf s c with
    | none =>
      msend s c.cid { type := EventStatusUpdate, roomID := "",
                      payload := { in_room := false, watch_connected := false } }
    | some (_, r) =>
      msend s c.cid { type := EventStatusUpdate, roomID := r.id,
                      payload := { in_room := true,
                                   watch_connected := (r.getPeer DeviceTypeWatch).isSome } }

/-- One write-loop step of one client. -/
def writerTick (s : MState) (cid : Nat) : MState :=
  { s with sessions := match lookA cid s.sessions with
                       | none => s.sessions
                       | some st => setA cid (writerStep st) s.sessions }

inductive Op where
  | connect (c : CRef)
  | route (ev : Event) (c : CRef) (now : Nat)
  | disconnect (c : CRef)
  | pingerTick (c : CRef)
  | writer (cid : Nat)
  | actionWaiter (cid ch : Nat) (rid reqID : String)
  | genericWaiter (c : CRef) (ch : Nat) (reqID : String)

def applyOp : Op → MState → MState
  | .connect c, s => connectClient s c
  | .route ev c now, s =>
    match routeEvent s ev c now with
    | (s', none) => s'
    | (s', some msg) => sendErrorTo s' c.cid ev.requestID "routing_error" msg
  | .disconnect c, s => managerRemoveClient s c
  | .pingerTick c, s => statusPingerTick s c
  | .writer cid, s => writerTick s cid
  | .actionWaiter cid ch rid reqID, s => actionWaiterRun s cid ch rid reqID
  | .genericWaiter c ch reqID, s => genericWaiterRun s c ch reqID

def StepTo (s s' : MState) : Prop := ∃ l, s' = applyOp l s

def Reaches : MState → MState → Prop := Relation.ReflTransGen StepTo

/-! ## Framing lemmas -/

theorem csend_done (c : CState) (ev : Event) : (csend c ev).done = c.done := by
  unfold csend; split <;> [rfl; split <;> rfl]

@[simp] theorem msend_registry (s : MState) (cid : Nat) (ev : Event) :
    (msend s cid ev).registry = s.registry := rfl
@[simp] theorem msend_roomObjs (s : MState) (cid : Nat) (ev : Event) :
    (msend s cid ev).roomObjs = s.roomObjs := rfl
@[simp] theorem msend_chans (s : MState) (cid : Nat) (ev : Event) :
    (msend s cid ev).chans = s.chans := rfl
@[simp] theorem msend_nextChan (s : MState) (cid : Nat) (ev : Event) :
    (msend s cid ev).nextChan = s.nextChan := rfl
@[simp] theorem msend_nextToken (s : MState) (cid : Nat) (ev : Event) :
    (msend s cid ev).nextToken = s.nextToken := rfl
@[simp] theorem msend_backref (s : MState) (cid : Nat) (ev : Event) :
    (msend s cid ev).backref = s.backref := rfl

@[simp] theorem mcloseConn_registry (s : MState) (cid : Nat) :
    (mcloseConn s cid).registry = s.registry := rfl
@[simp] theorem mcloseConn_roomObjs (s : MState) (cid : Nat) :
    (mcloseConn s cid).roomObjs = s.roomObjs := rfl
@[simp] theorem mcloseConn_chans (s : MState) (cid : Nat) :
    (mcloseConn s cid).chans = s.chans := rfl
@[simp] theorem mcloseConn_nextChan (s : MState) (cid : Nat) :
    (mcloseConn s cid).nextChan = s.nextChan := rfl
@[simp] theorem mcloseConn_nextToken (s : MState) (cid : Nat) :
    (mcloseConn s cid).nextToken = s.nextToken := rfl
@[simp] theorem mcloseConn_backref (s : MState) (cid : Nat) :
    (mcloseConn s cid).backref = s.backref := rfl

theorem sendList_cons (s : MState) (p : String × CRef) (ts : List (String × CRef)) (ev : Event) :
    sendList s (p :: ts) ev = sendList (msend s p.2.cid ev) ts ev := rfl

@[simp] theorem sendList_registry (ts : List (String × CRef)) (s : MState) (ev : Event) :
    (sendList s ts ev).registry = s.registry := by
  induction ts generalizing s with
  | nil => rfl
  | cons p rest ih => rw [sendList_cons, ih]; rfl
@[simp] theorem sendList_roomObjs (ts : List (String × CRef)) (s : MState) (ev : Event) :
    (sendList s ts ev).roomObjs = s.roomObjs := by
  induction ts generalizing s with
  | nil => rfl
  | cons p rest ih => rw [sendList_cons, ih]; rfl
@[simp] theorem sendList_chans (ts : List (String × CRef)) (s : MState) (ev : Event) :
    (sendList s ts ev).chans = s.chans := by
  induction ts generalizing s with
  | nil => rfl
  | cons p rest ih => rw [sendList_cons, ih]; rfl
@[simp] theorem sendList_nextChan (ts : List (String × CRef)) (s : MState) (ev : Event) :
    (sendList s ts ev).nextChan = s.nextChan := by
  induction ts generalizing s with
  | nil => rfl
  | cons p rest ih => rw [sendList_cons, ih]; rfl
@[simp] theorem sendList_nextToken (ts : List (String × CRef)) (s : MState) (ev : Event) :
    (sendList s ts ev).nextToken = s.nextToken := by
  induction ts generalizing s with
  | nil => rfl
  | cons p rest ih => rw [sendList_cons, ih]; rfl
@[simp] theorem sendList_backref (ts : List (String × CRef)) (s : MState) (ev : Event) :
    (sendList s ts ev).backref = s.backref := by
  induction ts generalizing s with
  | nil => rfl
  | cons p rest ih => rw [sendList_cons, ih]; rfl

theorem sendPairList_cons (s : MState) (p : String × CRef) (ts : List (String × CRef))
    (e1 e2 : Event) :
    sendPairList s (p :: ts) e1 e2 = sendPairList (msend (msend s p.2.cid e1) p.2.cid e2) ts e1 e2 := rfl

@[simp] theorem sendPairList_registry (ts : List (String × CRef)) (s : MState) (e1 e2 : Event) :
    (sendPairList s ts e1 e2).registry = s.registry := by
  induction ts generalizing s with
  | nil => rfl
  | cons p rest ih => rw [sendPairList_cons, ih]; rfl
@[simp] theorem sendPairList_roomObjs (ts : List (String × CRef)) (s : MState) (e1 e2 : Event) :
    (sendPairList s ts e1 e2).roomObjs = s.roomObjs := by
  induction ts generalizing s with
  | nil => rfl
  | cons p rest ih => rw [sendPairList_cons, ih]; rfl
@[simp] theorem sendPairList_chans (ts : List (String × CRef)) (s : MState) (e1 e2 : Event) :
    (sendPairList s ts e1 e2).chans = s.chans := by
  induction ts generalizing s with
  | nil => rfl
  | cons p rest ih => rw [sendPairList_cons, ih]; rfl
@[simp] theorem sendPairList_nextChan (ts : List (String × CRef)) (s : MState) (e1 e2 : Event) :
    (sendPairList s ts e1 e2).nextChan = s.nextChan := by
  induction ts generalizing s with
  | nil => rfl
  | cons p rest ih => rw [sendPairList_cons, ih]; rfl
@[simp] theorem sendPairList_nextToken (ts : List (String × CRef)) (s : MState) (e1 e2 : Event) :
    (sendPairList s ts e1 e2).nextToken = s.nextToken := by
  induction ts generalizing s with
  | nil => rfl
  | cons p rest ih => rw [sendPairList_cons, ih]; rfl
@[simp] theorem sendPairList_backref (ts : List (String × CRef)) (s : MState) (e1 e2 : Event) :
    (sendPairList s ts e1 e2).backref = s.backref := by
  induction ts generalizing s with
  | nil => rfl
  | cons p rest ih => rw [sendPairList_cons, ih]; rfl

@[simp] theorem broadcastExcept_registry (s : MState) (tok : Nat) (ex : String) (ev : Event) :
    (broadcastExcept s tok ex ev).registry = s.registry := by
  unfold broadcastExcept; cases lookA tok s.roomObjs <;> simp
@[simp] theorem broadcastExcept_roomObjs (s : MState) (tok : Nat) (ex : String) (ev : Event) :
    (broadcastExcept s tok ex ev).roomObjs = s.roomObjs := by
  unfold broadcastExcept; cases lookA tok s.roomObjs <;> simp
@[simp] theorem broadcastExcept_chans (s : MState) (tok : Nat) (ex : String) (ev : Event) :
    (broadcastExcept s tok ex ev).chans = s.chans := by
  unfold broadcastExcept; cases lookA tok s.roomObjs <;> simp
@[simp] theorem broadcastExcept_nextChan (s : MState) (tok : Nat) (ex : String) (ev : Event) :
    (broadcastExcept s tok ex ev).nextChan = s.nextChan := by
  unfold broadcastExcept; cases lookA tok s.roomObjs <;> simp
@[simp] theorem broadcastExcept_nextToken (s : MState) (tok : Nat) (ex : String) (ev : Event) :
    (broadcastExcept s tok ex ev).nextToken = s.nextToken := by
  unfold broadcastExcept; cases lookA tok s.roomObjs <;> simp
@[simp] theorem broadcastExcept_backref (s : MState) (tok : Nat) (ex : String) (ev : Event) :
    (broadcastExcept s tok ex ev).backref = s.backref := by
  unfold broadcastExcept; cases lookA tok s.roomObjs <;> simp

theorem msend_sessions_ne {s : MState} {cid cid' : Nat} (ev : Event) (h : cid' ≠ cid) :
    lookA cid' (msend s cid ev).sessions = lookA cid' s.sessions := by
  unfold msend
  cases h2 : lookA cid s.sessions with
  | none => rfl
  | some st => simp [lookA_setA_ne _ _ h]

theorem msend_sessions_self {s : MState} {cid : Nat} {st : CState} (ev : Event)
    (h : lookA cid s.sessions = some st) :
    lookA cid (msend s cid ev).sessions = some (csend st ev) := by
  unfold msend; simp [h, lookA_setA_self]

theorem mcloseConn_sessions_ne {s : MState} {cid cid' : Nat} (h : cid' ≠ cid) :
    lookA cid' (mcloseConn s cid).sessions = lookA cid' s.sessions := by
  unfold mcloseConn
  cases h2 : lookA cid s.sessions with
  | none => rfl
  | some st => simp [lookA_setA_ne _ _ h]

/-! ## Claim C5 -/

theorem writerStep_not_mem {e : Event} {c : CState}
    (h1 : e ∉ c.egress) (h2 : e ∉ c.transport) :
    e ∉ (writerStep c).egress ∧ e ∉ (writerStep c).transport := by
  cases hc : c.egress with
  | nil =>
    simp only [writerStep, hc]
    exact ⟨by simp, h2⟩
  | cons e' rest =>
    simp only [hc, List.mem_cons, not_or] at h1
    simp only [writerStep, hc, List.mem_append, List.mem_singleton, not_or]
    exact ⟨h1.2, h2, h1.1⟩

theorem writerIter_not_mem {e : Event} (n : Nat) :
    ∀ (c : CState), e ∉ c.egress → e ∉ c.transport →
      e ∉ (writerStep^[n] c).transport := by
  induction n with
  | zero => intro c _ h2; simpa using h2
  | succ n ih =>
    intro c h1 h2
    rw [Function.iterate_succ_apply]
    exact ih _ (writerStep_not_mem h1 h2).1 (writerStep_not_mem h1 h2).2

/-- C5: `Client.send` never blocks its caller (it is a total function of the
client state): when the egress buffer already holds 64 events, or the client
has been shut down (`done` signalled by `closeConn`), the event is dropped
and the state is unchanged — in particular it is not enqueued; and an event
sent after `closeConn` has run is never written to the transport by any
number of write-loop steps (the write loop only delivers events drawn from
the egress buffer). -/
theorem C5_send_drop_and_no_delivery (c : CState) (e : Event) :
    (csend (closeConn c) e = closeConn c) ∧
    (c.egress.length ≥ egressCap → csend c e = c) ∧
    (c.done = true → csend c e = c) ∧
    (∀ n : Nat, e ∉ c.egress → e ∉ c.transport →
       e ∉ (writerStep^[n] (csend (closeConn c) e)).transport) := by
  refine ⟨by simp [csend, closeConn], ?_, ?_, ?_⟩
  · intro h
    unfold csend
    split
    · rfl
    · rw [if_neg (by omega)]
  · intro h; simp [csend, h]
  · intro n h1 h2
    have he : csend (closeConn c) e = closeConn c := by simp [csend, closeConn]
    rw [he]
    exact writerIter_not_mem n _ (by simpa [closeConn] using h1) (by simpa [closeConn] using h2)

theorem C5_send_drop_and_no_delivery_witness :
    (csend { egress := List.replicate 64 ({} : Event) } ({} : Event) =
       { egress := List.replicate 64 ({} : Event) }) ∧
    ({} : Event) ∉ (writerStep^[2] (csend (closeConn {}) ({} : Event))).transport :=
  ⟨(C5_send_drop_and_no_delivery { egress := List.replicate 64 ({} : Event) } {}).2.1
     (by simp [egressCap]),
   (C5_send_drop_and_no_delivery {} {}).2.2.2 2 (by simp) (by simp)⟩

/-! ## Claim C6 -/

/-- C6: `RoomCache.Get(k)` misses when the entry is absent, and misses and
removes the entry when the elapsed time since `updated_at` exceeds its ttl;
otherwise it returns the stored bytes as a hit.  Hence a get is a hit iff
the stored entry was written within the last ttl (and not removed), and
`Set` always overwrites the entry with timestamp `now`. -/
theorem C6_cache_get_set (now : Nat) (key : String) (rc : Cache) :
    (lookA key rc = none → cacheGet now key rc = (none, rc)) ∧
    (∀ e, lookA key rc = some e → now - e.updatedAt > e.ttl →
       cacheGet now key rc = (none, eraseA key rc)) ∧
    (∀ e, lookA key rc = some e → now - e.updatedAt ≤ e.ttl →
       cacheGet now key rc = (some e.data, rc)) ∧
    (∀ data ttl tset, lookA key (cacheSet key data ttl tset rc) =
       some { data := data, updatedAt := tset, ttl := ttl }) ∧
    (∀ data ttl tset, now - tset ≤ ttl →
       (cacheGet now key (cacheSet key data ttl tset rc)).1 = some data) ∧
    ((cacheGet now key rc).1 ≠ none ↔
       ∃ e, lookA key rc = some e ∧ now - e.updatedAt ≤ e.ttl) := by
  refine ⟨?_, ?_, ?_, ?_, ?_, ?_⟩
  · intro h; simp [cacheGet, h]
  · intro e he hexp; simp [cacheGet, he, hexp]
  · intro e he hfr; simp [cacheGet, he, Nat.not_lt.mpr hfr]
  · intro data ttl tset; exact lookA_setA_self key _ rc
  · intro data ttl tset hfr
    have hl : lookA key (cacheSet key data ttl tset rc) =
        some { data := data, updatedAt := tset, ttl := ttl } := lookA_setA_self key _ rc
    simp [cacheGet, hl, Nat.not_lt.mpr hfr]
  · cases he : lookA key rc with
    | none => simp [cacheGet, he]
    | some e =>
      by_cases hexp : e.ttl < now - e.updatedAt
      · simp only [cacheGet, he, if_pos hexp, ne_eq, not_true_eq_false, false_iff]
        rintro ⟨e', he', hfr⟩
        injection he' with h
        subst h
        omega
      · simp only [cacheGet, he, if_neg hexp, ne_eq, reduceCtorEq, not_false_eq_true, true_iff]
        exact ⟨e, rfl, by omega⟩

theorem C6_cache_get_set_witness :
    cacheGet 5 "k" (cacheSet "k" {} 10 0 []) = (some {}, cacheSet "k" {} 10 0 []) ∧
    (cacheGet 20 "k" (cacheSet "k" {} 10 0 [])).1 = none :=
  ⟨(C6_cache_get_set 5 "k" (cacheSet "k" {} 10 0 [])).2.2.1
     { data := {}, updatedAt := 0, ttl := 10 } (by decide) (by decide),
   by decide⟩

/-! ## Claim C3 and C10 helpers -/

theorem roomAddClient_roomObjs {s : MState} {tok : Nat} {r : Room} (c : CRef)
    (h : lookA tok s.roomObjs = some r) :
    (roomAddClient s tok c).roomObjs =
      setA tok { r with clients := setA c.deviceID c r.clients } s.roomObjs := by
  unfold roomAddClient
  rw [h]
  cases hpr : lookA c.deviceID r.clients with
  | none => simp [hpr]
  | some p =>
    by_cases hp : p.cid = c.cid
    · simp [hpr, hp]
    · simp [hpr, hp]

/-- `done` flags of all sessions are preserved by a state transformation. -/
def donePres (s s' : MState) : Prop :=
  ∀ cid st, lookA cid s.sessions = some st →
    ∃ st', lookA cid s'.sessions = some st' ∧ st'.done = st.done

theorem donePres_refl (s : MState) : donePres s s := fun _ st h => ⟨st, h, rfl⟩

theorem donePres_of_sessions_eq {s s' : MState} (h : s'.sessions = s.sessions) :
    donePres s s' := fun _ st hl => ⟨st, by rw [h]; exact hl, rfl⟩

theorem donePres_trans {s1 s2 s3 : MState} (h1 : donePres s1 s2) (h2 : donePres s2 s3) :
    donePres s1 s3 := by
  intro cid st h
  obtain ⟨st', h', e1⟩ := h1 cid st h
  obtain ⟨st'', h'', e2⟩ := h2 cid st' h'
  exact ⟨st'', h'', e2.trans e1⟩

theorem donePres_msend (s : MState) (cid : Nat) (ev : Event) : donePres s (msend s cid ev) := by
  intro cid' st h
  by_cases hc : cid' = cid
  · subst hc
    rw [msend_sessions_self ev h]
    exact ⟨csend st ev, rfl, csend_done st ev⟩
  · rw [msend_sessions_ne ev hc]
    exact ⟨st, h, rfl⟩

theorem donePres_sendList (ts : List (String × CRef)) (s : MState) (ev : Event) :
    donePres s (sendList s ts ev) := by
  induction ts generalizing s with
  | nil => exact donePres_refl s
  | cons p rest ih =>
    rw [sendList_cons]
    exact donePres_trans (donePres_msend s p.2.cid ev) (ih _)

theorem donePres_broadcastExcept (s : MState) (tok : Nat) (ex : String) (ev : Event) :
    donePres s (broadcastExcept s tok ex ev) := by
  unfold broadcastExcept
  cases lookA tok s.roomObjs with
  | none => exact donePres_refl s
  | some r => exact donePres_sendList _ s ev

/-- When the registered client for `c.deviceID` is `c` itself, `addClient`
shuts nobody down. -/
theorem addClient_same_donePres {s : MState} {tok : Nat} {r : Room} {c : CRef}
    (hr : lookA tok s.roomObjs = some r)
    (hprior : lookA c.deviceID r.clients = some c) :
    donePres s (roomAddClient s tok c) := by
  unfold roomAddClient
  rw [hr]
  simp only [hprior, ne_eq, not_true_eq_false, if_false, ite_false]
  refine donePres_trans ?_ (donePres_broadcastExcept _ tok c.deviceID (peerConnEvent r.id c))
  exact donePres_of_sessions_eq rfl

/-- C3: `Room.removeClient(c)` removes the membership entry only when the
registered client for `c.deviceID` is the same object as `c`; for a stale
disconnect (a different object registered) it returns with the whole room —
clients map, pending table and `is_active` — unchanged; hence after a new
client `b` displaces client `a` under the same device id, removing `a`
leaves `b` the registered member. -/
theorem C3_removeClient_stale_noop :
    (∀ (s : MState) (tok : Nat) (r : Room) (c ex : CRef),
       lookA tok s.roomObjs = some r →
       lookA c.deviceID r.clients = some ex →
       ex.cid ≠ c.cid →
       roomRemoveClient s tok c = s) ∧
    (∀ (s : MState) (tok : Nat) (r : Room) (a b : CRef),
       lookA tok s.roomObjs = some r →
       a.deviceID = b.deviceID →
       a.cid ≠ b.cid →
       roomRemoveClient (roomAddClient s tok b) tok a = roomAddClient s tok b ∧
       ∃ r', lookA tok (roomRemoveClient (roomAddClient s tok b) tok a).roomObjs = some r' ∧
         lookA b.deviceID r'.clients = some b) := by
  have stale : ∀ (s : MState) (tok : Nat) (r : Room) (c ex : CRef),
      lookA tok s.roomObjs = some r →
      lookA c.deviceID r.clients = some ex →
      ex.cid ≠ c.cid →
      roomRemoveClient s tok c = s := by
    intro s tok r c ex hr hex hne
    unfold roomRemoveClient
    rw [hr]
    simp only [hex, ne_eq, hne, not_false_eq_true, if_true, ite_true]
  refine ⟨stale, ?_⟩
  intro s tok r a b hr hdev hne
  have hr1 : lookA tok (roomAddClient s tok b).roomObjs =
      some { r with clients := setA b.deviceID b r.clients } := by
    rw [roomAddClient_roomObjs b hr]; exact lookA_setA_self _ _ _
  have hlook : lookA a.deviceID (setA b.deviceID b r.clients) = some b := by
    rw [hdev]; exact lookA_setA_self _ _ _
  have hnoop : roomRemoveClient (roomAddClient s tok b) tok a = roomAddClient s tok b :=
    stale _ tok _ a b hr1 hlook (Ne.symm hne)
  refine ⟨hnoop, { r with clients := setA b.deviceID b r.clients }, ?_, ?_⟩
  · rw [hnoop]; exact hr1
  · exact lookA_setA_self _ _ _

def c3Room : Room :=
  { token := 0, id := "R", macID := "M", clients := [("X", ⟨5, "X", "watch"⟩)],
    cache := [], pending := [], isActive := true }

def c3S : MState := { roomObjs := [(0, c3Room)] }

theorem C3_removeClient_stale_noop_witness :
    roomRemoveClient (roomAddClient c3S 0 ⟨6, "X", "watch"⟩) 0 ⟨5, "X", "watch"⟩ =
      roomAddClient c3S 0 ⟨6, "X", "watch"⟩ :=
  (C3_removeClient_stale_noop.2 c3S 0 c3Room ⟨5, "X", "watch"⟩ ⟨6, "X", "watch"⟩
    (by decide) (by decide) (by decide)).1

/-- C10: if `c` is already the registered member for `c.deviceID`, calling
`Room.addClient(c)` again leaves `c` the member and does not shut `c` (or
anyone) down — the `done` flag of every session is preserved, since the
displaced-client shutdown runs only when the prior registered client is a
different object from `c`.  Consequently a host rejoining its own active
room via `create_room` is re-added without its connection being closed. -/
theorem C10_addClient_same_object :
    (∀ (s : MState) (tok : Nat) (r : Room) (c : CRef),
       lookA tok s.roomObjs = some r →
       lookA c.deviceID r.clients = some c →
       (∃ r', lookA tok (roomAddClient s tok c).roomObjs = some r' ∧
          lookA c.deviceID r'.clients = some c) ∧
       donePres s (roomAddClient s tok c)) ∧
    (∀ (s : MState) (ev : Event) (c : CRef) (tok : Nat) (r : Room),
       c.deviceType = DeviceTypeMac →
       getRoomM s ev.payload.room_id = some (tok, r) →
       r.macID == c.deviceID →
       lookA c.deviceID r.clients = some c →
       donePres s (handleCreateRoom s ev c).1) := by
  constructor
  · intro s tok r c hr hprior
    constructor
    · refine ⟨{ r with clients := setA c.deviceID c r.clients }, ?_, lookA_setA_self _ _ _⟩
      rw [roomAddClient_roomObjs c hr]
      exact lookA_setA_self _ _ _
    · exact addClient_same_donePres hr hprior
  · intro s ev c tok r hmac hroom howner hprior
    unfold handleCreateRoom
    rw [if_neg (by simp [hmac])]
    rw [hroom]
    simp only [howner, if_true, ite_true]
    have hr1 : lookA tok
        ({ s with roomObjs := setA tok { r with isActive := true } s.roomObjs } : MState).roomObjs =
        some { r with isActive := true } := lookA_setA_self _ _ _
    refine donePres_trans ?_ (donePres_msend _ c.cid _)
    refine donePres_trans ?_ (donePres_msend _ c.cid _)
    refine donePres_trans ?_ (addClient_same_donePres hr1 hprior)
    exact donePres_of_sessions_eq rfl

def c10Room : Room :=
  { token := 0, id := "R", macID := "M", clients := [("M", ⟨0, "M", "mac"⟩)],
    cache := [], pending := [], isActive := true }

def c10S : MState := { roomObjs := [(0, c10Room)], sessions := [(0, {})] }

theorem C10_addClient_same_object_witness :
    donePres c10S (roomAddClient c10S 0 ⟨0, "M", "mac"⟩) :=
  (C10_addClient_same_object.1 c10S 0 c10Room ⟨0, "M", "mac"⟩ (by decide) (by decide)).2

/-! ## Claim C9 -/

/-- C9: for a `media_action` event from a peer (watch) in a room, the
handler returns the error "invalid media action" iff the payload's action is
not one of play, pause, volup, voldown, volumeup, volumedown, next, prev;
for a valid action it forwards a `media_action` event carrying the original
request id to the host without touching any room state (in particular the
pending table is unchanged — no waiter is registered); and if no host is
present it instead sends the requester an `error` event with code
`mac_unavailable`. -/
theorem C9_media_action (s : MState) (ev : Event) (c : CRef) (tok : Nat) (r : Room)
    (hcr : clientRoomOf s c = some (tok, r))
    (hdt : c.deviceType = DeviceTypeWatch) :
    ((handleMediaAction s ev c).2 = some "invalid media action" ↔
       ev.payload.action ∉ validMediaActions) ∧
    (∀ mac, ev.payload.action ∈ validMediaActions →
       r.getPeer DeviceTypeMac = some mac →
       handleMediaAction s ev c =
         (msend s mac.cid { type := EventMediaAction, roomID := r.id, deviceID := c.deviceID,
                            requestID := ev.requestID, payload := ev.payload }, none) ∧
       (handleMediaAction s ev c).1.roomObjs = s.roomObjs) ∧
    (ev.payload.action ∈ validMediaActions →
       r.getPeer DeviceTypeMac = none →
       handleMediaAction s ev c =
         (sendErrorTo s c.cid ev.requestID "mac_unavailable" "Mac device not connected", none)) := by
  refine ⟨?_, ?_, ?_⟩
  · by_cases hin : ev.payload.action ∈ validMediaActions
    · cases hg : r.getPeer DeviceTypeMac with
      | none => simp [handleMediaAction, hcr, hdt, hg, hin]
      | some mac => simp [handleMediaAction, hcr, hdt, hg, hin]
    · simp [handleMediaAction, hcr, hdt, hin]
  · intro mac hin hg
    constructor
    · simp [handleMediaAction, hcr, hdt, hg, hin]
    · simp [handleMediaAction, hcr, hdt, hg, hin]
  · intro hin hg
    simp [handleMediaAction, hcr, hdt, hg, hin, sendErrorTo]

def c9Mac : CRef := ⟨0, "M", "mac"⟩
def c9Watch : CRef := ⟨1, "W", "watch"⟩
def c9Room : Room :=
  { token := 0, id := "R", macID := "M",
    clients := [("M", c9Mac), ("W", c9Watch)], cache := [], pending := [], isActive := true }
def c9S : MState :=
  { roomObjs := [(0, c9Room)], backref := [(1, 0)], sessions := [(0, {}), (1, {})] }
def c9Ev : Event := { type := EventMediaAction, requestID := "q7", payload := { action := "play" } }

theorem C9_media_action_witness :
    handleMediaAction c9S c9Ev c9Watch =
      (msend c9S c9Mac.cid { type := EventMediaAction, roomID := c9Room.id,
                             deviceID := c9Watch.deviceID, requestID := c9Ev.requestID,
                             payload := c9Ev.payload }, none) :=
  ((C9_media_action c9S c9Ev c9Watch 0 c9Room (by decide) (by decide)).2.1 c9Mac
     (by decide) (by decide)).1

/-! ## Claim C4 -/

/-- C4: two consecutive `create_room` events from the same host (device type
mac) with the same room id both succeed: the first reply is
`room_joined{status:created,role:host}`, the second is
`room_joined{status:rejoined,role:host}`, the registry still maps the room
id to the token of the room created by the first call (the same object), and
the host remains the registered member for its device id. -/
theorem C4_create_room_twice (did rid : String) (cid : Nat) :
    let c : CRef := ⟨cid, did, DeviceTypeMac⟩
    let ev : Event := { type := EventCreateRoom, payload := { room_id := rid } }
    let s0 := connectClient initState c
    let p1 := handleCreateRoom s0 ev c
    let p2 := handleCreateRoom p1.1 ev c
    p1.2 = none ∧ p2.2 = none ∧
    lookA rid p1.1.registry = some 0 ∧
    lookA rid p2.1.registry = some 0 ∧
    (∃ r2, lookA 0 p2.1.roomObjs = some r2 ∧ r2.token = 0 ∧ r2.isActive = true ∧
       r2.macID = did ∧ lookA did r2.clients = some c) ∧
    lookA cid p2.1.sessions = some
      { egress := [{ type := EventConnect },
                   { type := EventStatusUpdate, roomID := rid,
                     payload := { in_room := true, watch_connected := false } },
                   { type := EventRoomJoined, roomID := rid,
                     payload := { status := "created", role := "host" } },
                   { type := EventStatusUpdate, roomID := rid,
                     payload := { in_room := true, watch_connected := false } },
                   { type := EventRoomJoined, roomID := rid,
                     payload := { status := "rejoined", role := "host" } }],
        done := false, transport := [] } := by
  simp [connectClient, handleCreateRoom, createRoom, roomAddClient, broadcastExcept, sendList,
        getRoomM, initState, msend, lookA, setA, csend, egressCap, Room.getPeer,
        peerConnEvent, DeviceTypeMac, DeviceTypeWatch, EventCreateRoom]

/-! ## Claim C8 helpers -/

theorem lookA_eraseA_ne {α β : Type} [DecidableEq α] {k k' : α} (h : k ≠ k')
    (l : List (α × β)) : lookA k (eraseA k' l) = lookA k l := by
  induction l with
  | nil => simp [eraseA]
  | cons p rest ih =>
    obtain ⟨k1, v1⟩ := p
    by_cases h2 : k' = k1
    · subst h2
      simp [eraseA, lookA, h]
    · by_cases h3 : k = k1 <;> simp [eraseA, lookA, h2, h3, ih]

theorem cacheGet_fst_congr (now : Nat) (k : String) {x y : Cache}
    (h : lookA k x = lookA k y) : (cacheGet now k x).1 = (cacheGet now k y).1 := by
  unfold cacheGet
  rw [h]
  cases lookA k y with
  | none => rfl
  | some e => by_cases hex : e.ttl < now - e.updatedAt <;> simp [hex]

theorem lookA_cacheGet_snd_ne (now : Nat) {k k' : String} (h : k ≠ k') (rc : Cache) :
    lookA k (cacheGet now k' rc).2 = lookA k rc := by
  unfold cacheGet
  cases hl : lookA k' rc with
  | none => rfl
  | some e =>
    by_cases hex : e.ttl < now - e.updatedAt
    · simp only [hex, if_pos]
      exact lookA_eraseA_ne h rc
    · simp [hex]

theorem sendList_sessions_ne (ts : List (String × CRef)) (s : MState) (ev : Event)
    (cid : Nat) (h : ∀ p ∈ ts, p.2.cid ≠ cid) :
    lookA cid (sendList s ts ev).sessions = lookA cid s.sessions := by
  induction ts generalizing s with
  | nil => rfl
  | cons p rest ih =>
    rw [sendList_cons]
    rw [ih _ (fun q hq => h q (List.mem_cons_of_mem _ hq))]
    exact msend_sessions_ne ev (Ne.symm (h p (List.mem_cons_self _ _)))

theorem roomAddClient_sessions_fresh {s : MState} {tok : Nat} {r : Room} {c : CRef}
    (hr : lookA tok s.roomObjs = some r)
    (hfresh : ∀ p ∈ r.clients, p.2.cid ≠ c.cid) :
    lookA c.cid (roomAddClient s tok c).sessions = lookA c.cid s.sessions := by
  have hflt : ∀ p ∈ (setA c.deviceID c r.clients).filter (fun p => p.1 ≠ c.deviceID),
      p.2.cid ≠ c.cid := by
    intro p hp
    have hm := List.mem_filter.mp hp
    have hne : p.1 ≠ c.deviceID := by simpa using hm.2
    rcases mem_setA hm.1 with he | he
    · exact absurd (by rw [he]) hne
    · exact hfresh p he
  unfold roomAddClient
  rw [hr]
  cases hpr : lookA c.deviceID r.clients with
  | none =>
    simp only [hpr, broadcastExcept, lookA_setA_self]
    rw [sendList_sessions_ne _ _ _ _ hflt]
  | some p =>
    have hp : p.cid ≠ c.cid := hfresh (c.deviceID, p) (lookA_mem hpr)
    simp only [hpr, ne_eq, hp, not_false_eq_true, if_true, ite_true, broadcastExcept,
      mcloseConn_roomObjs, lookA_setA_self]
    rw [sendList_sessions_ne _ _ _ _ hflt]
    exact mcloseConn_sessions_ne (Ne.symm hp)

theorem msend_sessions_map (s : MState) (cid : Nat) (ev : Event) :
    lookA cid (msend s cid ev).sessions =
      (lookA cid s.sessions).map (fun st => csend st ev) := by
  unfold msend
  cases h : lookA cid s.sessions with
  | none => simp [h]
  | some st => simp [h, lookA_setA_self]

theorem csend_app {st : CState} (ev : Event) (hdone : st.done = false)
    (hlen : st.egress.length < egressCap) :
    csend st ev = { st with egress := st.egress ++ [ev] } := by
  simp [csend, hdone, hlen]

theorem sendCachedOne_spec {s : MState} {tok : Nat} {r : Room} {c : CRef} {st : CState}
    (now : Nat) (key evType rid : String)
    (hr : lookA tok s.roomObjs = some r)
    (hses : lookA c.cid s.sessions = some st)
    (hdone : st.done = false) (hlen : st.egress.length < egressCap) :
    ∃ r' st',
      lookA tok (sendCachedOne s tok c now key evType rid).roomObjs = some r' ∧
      r'.cache = (cacheGet now key r.cache).2 ∧
      r'.clients = r.clients ∧
      lookA c.cid (sendCachedOne s tok c now key evType rid).sessions = some st' ∧
      st'.done = false ∧ st'.transport = st.transport ∧
      st'.egress = st.egress ++
        (match (cacheGet now key r.cache).1 with
         | some d => [{ type := evType, roomID := rid, payload := d }]
         | none => []) := by
  rcases hres : cacheGet now key r.cache with ⟨o, rc'⟩
  have hrcg : roomCacheGet s tok key now =
      (o, { s with roomObjs := setA tok { r with cache := rc' } s.roomObjs }) := by
    unfold roomCacheGet
    simp only [hr, hres]
  cases o with
  | none =>
    refine ⟨{ r with cache := rc' }, st, ?_, rfl, rfl, ?_, hdone, rfl, ?_⟩
    · unfold sendCachedOne
      simp only [hrcg]
      exact lookA_setA_self _ _ _
    · unfold sendCachedOne
      simp only [hrcg]
      exact hses
    · simp [hres]
  | some d =>
    refine ⟨{ r with cache := rc' },
      { st with egress := st.egress ++ [{ type := evType, roomID := rid, payload := d }] },
      ?_, rfl, rfl, ?_, ?_, rfl, ?_⟩
    · unfold sendCachedOne
      simp only [hrcg, msend_roomObjs]
      exact lookA_setA_self _ _ _
    · unfold sendCachedOne
      simp only [hrcg, msend_sessions_map]
      rw [hses]
      simp [csend_app _ hdone hlen, hdone]
    · simp [hdone]
    · simp [hres]

theorem getRoomM_some {s : MState} {rid : String} {tok : Nat} {r : Room}
    (h : getRoomM s rid = some (tok, r)) :
    lookA rid s.registry = some tok ∧ lookA tok s.roomObjs = some r ∧ r.isActive = true := by
  unfold getRoomM at h
  cases h1 : lookA rid s.registry with
  | none => simp [h1] at h
  | some t =>
    simp only [h1] at h
    cases h2 : lookA t s.roomObjs with
    | none => simp [h2] at h
    | some r' =>
      simp only [h2] at h
      by_cases ha : r'.isActive
      · simp only [ha, if_true, ite_true, Option.some.injEq, Prod.mk.injEq] at h
        obtain ⟨he1, he2⟩ := h
        refine ⟨?_, ?_, ?_⟩
        · rw [he1]
        · rw [← he1, h2, he2]
        · rw [← he2]; exact ha
      · simp [ha] at h

/-- The four cached snapshots present at join time, each read independently
from the same cache state, in the fixed key order of `sendCachedData`. -/
def snapshotList (rc : Cache) (now : Nat) (rid : String) : List Event :=
  (match (cacheGet now "device_info" rc).1 with
   | some d => [{ type := EventDeviceInfo, roomID := rid, payload := d }]
   | none => []) ++
  (match (cacheGet now "battery" rc).1 with
   | some d => [{ type := EventBatteryUpdate, roomID := rid, payload := d }]
   | none => []) ++
  (match (cacheGet now "storage" rc).1 with
   | some d => [{ type := EventStorageUpdate, roomID := rid, payload := d }]
   | none => []) ++
  (match (cacheGet now "downloads" rc).1 with
   | some d => [{ type := EventDownloadsUpdate, roomID := rid, payload := d }]
   | none => [])

/-- C8: for a peer (watch) whose `join_room` for an existing active room
succeeds, every cached snapshot present in the room's cache (keys
device_info, battery, storage, downloads) is enqueued on the peer's egress
before the `room_joined{status:joined,role:client}` reply: with an empty
egress at join time the peer's egress afterwards is exactly the present
snapshots, in key order, followed by `room_joined`. -/
theorem C8_join_sends_cached_before_joined
    (s : MState) (ev : Event) (c : CRef) (now tok : Nat) (r : Room) (tr : List Event)
    (hroom : getRoomM s ev.payload.room_id = some (tok, r))
    (hdt : c.deviceType = DeviceTypeWatch)
    (hses : lookA c.cid s.sessions = some { egress := [], done := false, transport := tr })
    (hfresh : ∀ p ∈ r.clients, p.2.cid ≠ c.cid) :
    (handleJoinRoom s ev c now).2 = none ∧
    (∃ st', lookA c.cid (handleJoinRoom s ev c now).1.sessions = some st' ∧
       st'.egress = snapshotList r.cache now r.id ++
         [{ type := EventRoomJoined, roomID := r.id,
            payload := { status := "joined", role := "client" } }]) ∧
    (∀ d, (cacheGet now "device_info" r.cache).1 = some d →
       { type := EventDeviceInfo, roomID := r.id, payload := d }
         ∈ snapshotList r.cache now r.id) ∧
    (∀ d, (cacheGet now "battery" r.cache).1 = some d →
       { type := EventBatteryUpdate, roomID := r.id, payload := d }
         ∈ snapshotList r.cache now r.id) ∧
    (∀ d, (cacheGet now "storage" r.cache).1 = some d →
       { type := EventStorageUpdate, roomID := r.id, payload := d }
         ∈ snapshotList r.cache now r.id) ∧
    (∀ d, (cacheGet now "downloads" r.cache).1 = some d →
       { type := EventDownloadsUpdate, roomID := r.id, payload := d }
         ∈ snapshotList r.cache now r.id) := by
  obtain ⟨hreg, hL, hact⟩ := getRoomM_some hroom
  -- step 1: addClient leaves the peer's fresh session untouched and updates
  -- the room's membership only
  have f2 : lookA c.cid (roomAddClient s tok c).sessions =
      some { egress := [], done := false, transport := tr } := by
    rw [roomAddClient_sessions_fresh hL hfresh]; exact hses
  have f1 : lookA tok (roomAddClient s tok c).roomObjs =
      some { r with clients := setA c.deviceID c r.clients } := by
    rw [roomAddClient_roomObjs c hL]; exact lookA_setA_self _ _ _
  -- step 2: the four cached sends
  obtain ⟨r1, st1, hA1, hA2, hA3, hA4, hA5, hA6, hA7⟩ :=
    sendCachedOne_spec (s := roomAddClient s tok c) now "device_info" EventDeviceInfo r.id
      f1 f2 rfl (by simp [egressCap])
  have hlen1 : st1.egress.length < egressCap := by
    rw [hA7]
    cases (cacheGet now "device_info"
        ({ r with clients := setA c.deviceID c r.clients } : Room).cache).1 <;>
      simp [egressCap]
  obtain ⟨r2, st2, hB1, hB2, hB3, hB4, hB5, hB6, hB7⟩ :=
    sendCachedOne_spec now "battery" EventBatteryUpdate r.id hA1 hA4 hA5 hlen1
  have hlen2 : st2.egress.length < egressCap := by
    rw [hB7, hA7]
    cases (cacheGet now "device_info"
        ({ r with clients := setA c.deviceID c r.clients } : Room).cache).1 <;>
      cases (cacheGet now "battery" r1.cache).1 <;> simp [egressCap]
  obtain ⟨r3, st3, hC1, hC2, hC3, hC4, hC5, hC6, hC7⟩ :=
    sendCachedOne_spec now "storage" EventStorageUpdate r.id hB1 hB4 hB5 hlen2
  have hlen3 : st3.egress.length < egressCap := by
    rw [hC7, hB7, hA7]
    cases (cacheGet now "device_info"
        ({ r with clients := setA c.deviceID c r.clients } : Room).cache).1 <;>
      cases (cacheGet now "battery" r1.cache).1 <;>
      cases (cacheGet now "storage" r2.cache).1 <;> simp [egressCap]
  obtain ⟨r4, st4, hD1, hD2, hD3, hD4, hD5, hD6, hD7⟩ :=
    sendCachedOne_spec now "downloads" EventDownloadsUpdate r.id hC1 hC4 hC5 hlen3
  have hlen4 : st4.egress.length < egressCap := by
    rw [hD7, hC7, hB7, hA7]
    cases (cacheGet now "device_info"
        ({ r with clients := setA c.deviceID c r.clients } : Room).cache).1 <;>
      cases (cacheGet now "battery" r1.cache).1 <;>
      cases (cacheGet now "storage" r2.cache).1 <;>
      cases (cacheGet now "downloads" r3.cache).1 <;> simp [egressCap]
  -- convert the chained cache reads to reads of the original cache
  have hq2 : (cacheGet now "battery" r1.cache).1 = (cacheGet now "battery" r.cache).1 := by
    rw [hA2]
    exact cacheGet_fst_congr now _ (lookA_cacheGet_snd_ne now (by decide) _)
  have hq3 : (cacheGet now "storage" r2.cache).1 = (cacheGet now "storage" r.cache).1 := by
    rw [hB2, hA2]
    refine cacheGet_fst_congr now _ ?_
    rw [lookA_cacheGet_snd_ne now (by decide), lookA_cacheGet_snd_ne now (by decide)]
  have hq4 : (cacheGet now "downloads" r3.cache).1 = (cacheGet now "downloads" r.cache).1 := by
    rw [hC2, hB2, hA2]
    refine cacheGet_fst_congr now _ ?_
    rw [lookA_cacheGet_snd_ne now (by decide), lookA_cacheGet_snd_ne now (by decide),
        lookA_cacheGet_snd_ne now (by decide)]
  -- the egress after the four cached sends is the snapshot list
  have hegress4 : st4.egress = snapshotList r.cache now r.id := by
    rw [hD7, hC7, hB7, hA7, hq2, hq3, hq4]
    simp [snapshotList]
  -- step 3: the room_joined reply
  have hscd : sendCachedData (roomAddClient s tok c) tok c now r.id =
      sendCachedOne (sendCachedOne (sendCachedOne (sendCachedOne
        (roomAddClient s tok c) tok c now "device_info" EventDeviceInfo r.id)
        tok c now "battery" EventBatteryUpdate r.id)
        tok c now "storage" EventStorageUpdate r.id)
        tok c now "downloads" EventDownloadsUpdate r.id := by
    simp [sendCachedData, hdt, DeviceTypeWatch]
  have hE4 : lookA c.cid (msend (sendCachedData (roomAddClient s tok c) tok c now r.id) c.cid
      { type := EventRoomJoined, roomID := r.id,
        payload := { status := "joined", role := "client" } }).sessions =
      some { st4 with egress := st4.egress ++
        [{ type := EventRoomJoined, roomID := r.id,
           payload := { status := "joined", role := "client" } }] } := by
    rw [hscd, msend_sessions_map, hD4]
    simp [csend_app _ hD5 hlen4]
  have hO1 : lookA tok (msend (sendCachedData (roomAddClient s tok c) tok c now r.id) c.cid
      { type := EventRoomJoined, roomID := r.id,
        payload := { status := "joined", role := "client" } }).roomObjs = some r4 := by
    rw [msend_roomObjs, hscd]
    exact hD1
  have hclients4 : r4.clients = setA c.deviceID c r.clients := by
    rw [hD3, hC3, hB3, hA3]
  -- any host found after the join is a different session than the peer
  have hmacne : ∀ mac, r4.getPeer DeviceTypeMac = some mac → mac.cid ≠ c.cid := by
    intro mac hm
    unfold Room.getPeer at hm
    cases hf : r4.clients.find? (fun p => p.2.deviceType == DeviceTypeMac) with
    | none => rw [hf] at hm; cases hm
    | some q =>
      rw [hf] at hm
      have hqm := List.mem_of_find?_eq_some hf
      have hqp := List.find?_some hf
      injection hm with hm
      subst hm
      rw [hclients4] at hqm
      rcases mem_setA hqm with he | he
      · subst he
        simp only [hdt] at hqp
        simp [DeviceTypeWatch, DeviceTypeMac] at hqp
      · exact hfresh q he
  -- reduce the handler to its final shape
  refine ⟨?_, ?_, ?_, ?_, ?_, ?_⟩
  · simp only [handleJoinRoom, hroom]
    rw [if_neg (by simp [hdt, DeviceTypeWatch, DeviceTypeMac]),
        if_pos (by simp [hdt]), hO1]
    cases hmac : r4.getPeer DeviceTypeMac <;> simp [hmac]
  · simp only [handleJoinRoom, hroom]
    rw [if_neg (by simp [hdt, DeviceTypeWatch, DeviceTypeMac]),
        if_pos (by simp [hdt]), hO1]
    cases hmac : r4.getPeer DeviceTypeMac with
    | none =>
      simp only [hmac]
      exact ⟨_, hE4, by rw [hegress4]⟩
    | some mac =>
      simp only [hmac]
      have hX : lookA c.cid (msend (msend (sendCachedData (roomAddClient s tok c) tok c now r.id)
          c.cid { type := EventRoomJoined, roomID := r.id,
                  payload := { status := "joined", role := "client" } }) mac.cid
          { type := EventStatusUpdate, roomID := r.id,
            payload := { in_room := true, watch_connected := true } }).sessions =
          some { egress := st4.egress ++
                   [{ type := EventRoomJoined, roomID := r.id,
                      payload := { status := "joined", role := "client" } }],
                 done := st4.done, transport := st4.transport } := by
        rw [msend_sessions_ne _ (Ne.symm (hmacne mac hmac))]
        exact hE4
      exact ⟨_, hX, by simp only [hegress4]⟩
  · intro d hd; simp [snapshotList, hd]
  · intro d hd; simp [snapshotList, hd]
  · intro d hd; simp [snapshotList, hd]
  · intro d hd; simp [snapshotList, hd]

def c8Mac : CRef := ⟨0, "M", "mac"⟩
def c8Watch : CRef := ⟨1, "W", "watch"⟩
def c8Room : Room :=
  { token := 0, id := "R", macID := "M", clients := [("M", c8Mac)],
    cache := [("battery", { data := { raw := "level42" }, updatedAt := 0, ttl := 30 })],
    pending := [], isActive := true }
def c8S : MState :=
  { registry := [("R", 0)], roomObjs := [(0, c8Room)],
    sessions := [(0, {}), (1, {})] }
def c8Ev : Event := { type := EventJoinRoom, payload := { room_id := "R" } }

theorem C8_join_sends_cached_before_joined_witness :
    (handleJoinRoom c8S c8Ev c8Watch 5).2 = none ∧
    (∃ st', lookA c8Watch.cid (handleJoinRoom c8S c8Ev c8Watch 5).1.sessions = some st' ∧
       st'.egress = snapshotList c8Room.cache 5 c8Room.id ++
         [{ type := EventRoomJoined, roomID := c8Room.id,
            payload := { status := "joined", role := "client" } }]) :=
  let h := C8_join_sends_cached_before_joined c8S c8Ev c8Watch 5 0 c8Room []
    (by decide) (by decide) (by decide) (by decide)
  ⟨h.1, h.2.1⟩

/-! ## Step soundness machinery (claims C2 and C7)

`WF` bounds every allocated channel id and room token by the allocation
counters; it holds initially and is preserved by every step, and rules out
the degenerate states in which a fresh allocation could collide with (and
thereby "reopen" or "reactivate") an existing channel or room. -/

def WF (s : MState) : Prop :=
  (∀ p ∈ s.chans, p.1 < s.nextChan) ∧ (∀ p ∈ s.roomObjs, p.1 < s.nextToken)

/-- Closed channels stay closed (and present). -/
def ChanPres (s s' : MState) : Prop :=
  ∀ ch st, lookA ch s.chans = some st → st.isClosed = true →
    ∃ st', lookA ch s'.chans = some st' ∧ st'.isClosed = true

/-- Every room object survives with its `isActive` flag unchanged. -/
def ActivePres (s s' : MState) : Prop :=
  ∀ tok r, lookA tok s.roomObjs = some r →
    ∃ r', lookA tok s'.roomObjs = some r' ∧ r'.isActive = r.isActive

/-- Every room object survives; the `isActive` flag changes only by being
set to false on the room whose host is the removed client `c`. -/
def ActivePresExcept (s s' : MState) (c : CRef) : Prop :=
  ∀ tok r, lookA tok s.roomObjs = some r →
    ∃ r', lookA tok s'.roomObjs = some r' ∧
      (r'.isActive = r.isActive ∨ (r'.isActive = false ∧ c.deviceID = r.macID))

def StepSound (s s' : MState) : Prop := WF s' ∧ ChanPres s s' ∧ ActivePres s s'

theorem chanPres_refl (s : MState) : ChanPres s s := fun _ st h hc => ⟨st, h, hc⟩

theorem activePres_refl (s : MState) : ActivePres s s := fun _ r h => ⟨r, h, rfl⟩

theorem chanPres_trans {s1 s2 s3 : MState} (h1 : ChanPres s1 s2) (h2 : ChanPres s2 s3) :
    ChanPres s1 s3 := by
  intro ch st h hc
  obtain ⟨st', h', hc'⟩ := h1 ch st h hc
  exact h2 ch st' h' hc'

theorem activePres_trans {s1 s2 s3 : MState} (h1 : ActivePres s1 s2) (h2 : ActivePres s2 s3) :
    ActivePres s1 s3 := by
  intro tok r h
  obtain ⟨r', h', he⟩ := h1 tok r h
  obtain ⟨r'', h'', he'⟩ := h2 tok r' h'
  exact ⟨r'', h'', he'.trans he⟩

theorem stepSound_trans {s1 s2 s3 : MState} (h1 : StepSound s1 s2)
    (h2 : WF s2 → StepSound s2 s3) : StepSound s1 s3 := by
  obtain ⟨hw, hc, ha⟩ := h1
  obtain ⟨hw', hc', ha'⟩ := h2 hw
  exact ⟨hw', chanPres_trans hc hc', activePres_trans ha ha'⟩

theorem stepSound_trans2 {s1 s2 s3 : MState} (h2 : WF s2 → StepSound s2 s3)
    (h1 : StepSound s1 s2) : StepSound s1 s3 := stepSound_trans h1 h2

/-- Steps that only touch `sessions` (all the send-style helpers) are sound. -/
theorem stepSound_core_eq {s s' : MState} (hch : s'.chans = s.chans)
    (hro : s'.roomObjs = s.roomObjs) (hnc : s'.nextChan = s.nextChan)
    (hnt : s'.nextToken = s.nextToken) (hwf : WF s) : StepSound s s' := by
  refine ⟨⟨?_, ?_⟩, ?_, ?_⟩
  · intro p hp; rw [hch] at hp; rw [hnc]; exact hwf.1 p hp
  · intro p hp; rw [hro] at hp; rw [hnt]; exact hwf.2 p hp
  · intro ch st h hc; rw [hch]; exact ⟨st, h, hc⟩
  · intro tok r h; rw [hro]; exact ⟨r, h, rfl⟩

/-- Updating one existing room object without changing its `isActive` flag
is sound. -/
theorem stepSound_setRoom {s : MState} {tok : Nat} {r r' : Room}
    (hr : lookA tok s.roomObjs = some r) (hro : r'.isActive = r.isActive)
    (hwf : WF s) :
    StepSound s { s with roomObjs := setA tok r' s.roomObjs } := by
  refine ⟨⟨hwf.1, ?_⟩, chanPres_refl s, ?_⟩
  · intro p hp
    rcases mem_setA hp with he | he
    · rw [he]
      exact hwf.2 (tok, r) (lookA_mem hr)
    · exact hwf.2 p he
  · intro t rr h
    by_cases ht : t = tok
    · subst ht
      rw [h] at hr
      injection hr with hr
      subst hr
      exact ⟨r', lookA_setA_self _ _ _, hro⟩
    · exact ⟨rr, by rw [lookA_setA_ne _ _ ht]; exact h, rfl⟩

theorem stepSound_setRoom' {s s' : MState} {tok : Nat} {r r' : Room}
    (hr : lookA tok s.roomObjs = some r)
    (hch : s'.chans = s.chans) (hro : s'.roomObjs = setA tok r' s.roomObjs)
    (hact : r'.isActive = r.isActive)
    (hnc : s'.nextChan = s.nextChan) (hnt : s'.nextToken = s.nextToken)
    (hwf : WF s) : StepSound s s' := by
  refine ⟨⟨?_, ?_⟩, ?_, ?_⟩
  · intro p hp; rw [hch] at hp; rw [hnc]; exact hwf.1 p hp
  · intro p hp
    rw [hro] at hp
    rw [hnt]
    rcases mem_setA hp with he | he
    · rw [he]
      exact hwf.2 (tok, r) (lookA_mem hr)
    · exact hwf.2 p he
  · intro ch st h hc; rw [hch]; exact ⟨st, h, hc⟩
  · intro t rr h
    rw [hro]
    by_cases ht : t = tok
    · subst ht
      rw [h] at hr
      injection hr with hr
      subst hr
      exact ⟨r', lookA_setA_self _ _ _, hact⟩
    · exact ⟨rr, by rw [lookA_setA_ne _ _ ht]; exact h, rfl⟩

theorem stepSound_msend (s : MState) (cid : Nat) (ev : Event) (hwf : WF s) :
    StepSound s (msend s cid ev) := stepSound_core_eq rfl rfl rfl rfl hwf

theorem stepSound_mcloseConn (s : MState) (cid : Nat) (hwf : WF s) :
    StepSound s (mcloseConn s cid) := stepSound_core_eq rfl rfl rfl rfl hwf

theorem stepSound_sendErrorTo (s : MState) (cid : Nat) (a b c : String) (hwf : WF s) :
    StepSound s (sendErrorTo s cid a b c) := stepSound_core_eq rfl rfl rfl rfl hwf

theorem stepSound_sendList (s : MState) (ts : List (String × CRef)) (ev : Event) (hwf : WF s) :
    StepSound s (sendList s ts ev) :=
  stepSound_core_eq (sendList_chans ts s ev) (sendList_roomObjs ts s ev)
    (sendList_nextChan ts s ev) (sendList_nextToken ts s ev) hwf

theorem stepSound_sendPairList (s : MState) (ts : List (String × CRef)) (e1 e2 : Event)
    (hwf : WF s) : StepSound s (sendPairList s ts e1 e2) :=
  stepSound_core_eq (sendPairList_chans ts s e1 e2) (sendPairList_roomObjs ts s e1 e2)
    (sendPairList_nextChan ts s e1 e2) (sendPairList_nextToken ts s e1 e2) hwf

theorem stepSound_broadcastExcept (s : MState) (tok : Nat) (ex : String) (ev : Event)
    (hwf : WF s) : StepSound s (broadcastExcept s tok ex ev) :=
  stepSound_core_eq (broadcastExcept_chans s tok ex ev) (broadcastExcept_roomObjs s tok ex ev)
    (broadcastExcept_nextChan s tok ex ev) (broadcastExcept_nextToken s tok ex ev) hwf

theorem stepSound_writerTick (s : MState) (cid : Nat) (hwf : WF s) :
    StepSound s (writerTick s cid) := stepSound_core_eq rfl rfl rfl rfl hwf

theorem stepSound_connectClient (s : MState) (c : CRef) (hwf : WF s) :
    StepSound s (connectClient s c) := stepSound_core_eq rfl rfl rfl rfl hwf

theorem stepSound_statusPingerTick (s : MState) (c : CRef) (hwf : WF s) :
    StepSound s (statusPingerTick s c) := by
  unfold statusPingerTick
  split
  · exact stepSound_core_eq rfl rfl rfl rfl hwf
  · rcases h : clientRoomOf s c with _ | ⟨tok, r⟩ <;> simp only [h] <;>
      exact stepSound_core_eq rfl rfl rfl rfl hwf

theorem stepSound_roomAddClient (s : MState) (tok : Nat) (c : CRef) (hwf : WF s) :
    StepSound s (roomAddClient s tok c) := by
  unfold roomAddClient
  rcases hr : lookA tok s.roomObjs with _ | r
  · simp only [hr]
    exact stepSound_core_eq rfl rfl rfl rfl hwf
  · simp only [hr]
    have h1 : StepSound s { s with
        roomObjs := setA tok { r with clients := setA c.deviceID c r.clients } s.roomObjs,
        backref := setA c.cid tok s.backref } :=
      stepSound_setRoom' hr rfl rfl rfl rfl rfl hwf
    rcases hpr : lookA c.deviceID r.clients with _ | p <;> simp only [hpr]
    · exact stepSound_trans h1 (fun hwf1 => stepSound_broadcastExcept _ tok c.deviceID _ hwf1)
    · by_cases hp : p.cid = c.cid
      · simp only [hp, ne_eq, not_true_eq_false, if_false, ite_false]
        exact stepSound_trans h1 (fun hwf1 => stepSound_broadcastExcept _ tok c.deviceID _ hwf1)
      · simp only [ne_eq, hp, not_false_eq_true, if_true, ite_true]
        exact stepSound_trans h1 (fun hwf1 =>
          stepSound_trans (stepSound_mcloseConn _ p.cid hwf1) (fun hwf2 =>
            stepSound_broadcastExcept _ tok c.deviceID _ hwf2))

theorem stepSound_createRoom (s : MState) (rid mac : String) (hwf : WF s) :
    StepSound s (createRoom s rid mac).1 := by
  simp only [createRoom]
  refine ⟨⟨?_, ?_⟩, ?_, ?_⟩
  · intro p hp; exact hwf.1 p hp
  · intro p hp
    rcases mem_setA hp with he | he
    · rw [he]
      exact Nat.lt_succ_self _
    · exact Nat.lt_succ_of_lt (hwf.2 p he)
  · exact chanPres_refl s
  · intro tok r h
    have hlt : tok < s.nextToken := hwf.2 (tok, r) (lookA_mem h)
    refine ⟨r, ?_, rfl⟩
    rw [lookA_setA_ne _ _ (Nat.ne_of_lt hlt)]
    exact h

theorem stepSound_waitForResponse (s : MState) (tok : Nat) (q : String) (hwf : WF s) :
    StepSound s (waitForResponse s tok q).1 := by
  refine ⟨⟨?_, ?_⟩, ?_, ?_⟩
  · intro p hp
    rcases mem_setA hp with he | he
    · rw [he]
      exact Nat.lt_succ_self _
    · exact Nat.lt_succ_of_lt (hwf.1 p he)
  · intro p hp
    rcases hr : lookA tok s.roomObjs with _ | r
    · simp only [waitForResponse, hr] at hp
      exact hwf.2 p hp
    · simp only [waitForResponse, hr] at hp
      rcases mem_setA hp with he | he
      · rw [he]
        exact hwf.2 (tok, r) (lookA_mem hr)
      · exact hwf.2 p he
  · intro ch st h hc
    have hlt : ch < s.nextChan := hwf.1 (ch, st) (lookA_mem h)
    refine ⟨st, ?_, hc⟩
    show lookA ch (setA s.nextChan ChanSt.openEmpty s.chans) = some st
    rw [lookA_setA_ne _ _ (Nat.ne_of_lt hlt)]
    exact h
  · intro t rr h
    rcases hr : lookA tok s.roomObjs with _ | r
    · simp only [waitForResponse, hr]
      exact ⟨rr, h, rfl⟩
    · simp only [waitForResponse, hr]
      by_cases ht : t = tok
      · subst ht
        rw [h] at hr
        injection hr with hr
        subst hr
        exact ⟨_, lookA_setA_self _ _ _, rfl⟩
      · exact ⟨rr, by rw [lookA_setA_ne _ _ ht]; exact h, rfl⟩

theorem stepSound_fulfillResponse (s : MState) (tok : Nat) (ev : Event) (hwf : WF s) :
    StepSound s (fulfillResponse s tok ev).1 := by
  unfold fulfillResponse
  by_cases hq : ev.requestID = ""
  · simp only [hq, if_true, ite_true]
    exact stepSound_core_eq rfl rfl rfl rfl hwf
  · simp only [hq, if_false, ite_false]
    rcases hr : lookA tok s.roomObjs with _ | r <;> simp only [hr]
    · exact stepSound_core_eq rfl rfl rfl rfl hwf
    · rcases hp : lookA ev.requestID r.pending with _ | ch <;> simp only [hp]
      · exact stepSound_core_eq rfl rfl rfl rfl hwf
      · refine ⟨⟨?_, ?_⟩, ?_, ?_⟩
        · intro p hp2
          rcases hcs : lookA ch s.chans with _ | st
          · simp only [hcs] at hp2
            exact hwf.1 p hp2
          · simp only [hcs] at hp2
            rcases mem_setA hp2 with he | he
            · rw [he]
              exact hwf.1 (ch, st) (lookA_mem hcs)
            · exact hwf.1 p he
        · intro p hp2
          rcases mem_setA hp2 with he | he
          · rw [he]
            exact hwf.2 (tok, r) (lookA_mem hr)
          · exact hwf.2 p he
        · intro ch' st' h hc
          rcases hcs : lookA ch s.chans with _ | st
          · simp only [hcs]
            exact ⟨st', h, hc⟩
          · simp only [hcs]
            by_cases hce : ch' = ch
            · subst hce
              rw [h] at hcs
              injection hcs with hcs
              subst hcs
              refine ⟨fulfillOne st' ev, lookA_setA_self _ _ _, ?_⟩
              cases st' <;> simp_all [fulfillOne, ChanSt.isClosed]
            · exact ⟨st', by rw [lookA_setA_ne _ _ hce]; exact h, hc⟩
        · intro t rr h
          by_cases ht : t = tok
          · subst ht
            rw [h] at hr
            injection hr with hr
            subst hr
            exact ⟨_, lookA_setA_self _ _ _, rfl⟩
          · exact ⟨rr, by rw [lookA_setA_ne _ _ ht]; exact h, rfl⟩

theorem stepSound_roomCacheSet (s : MState) (tok : Nat) (key : String) (data : Payload)
    (ttl now : Nat) (hwf : WF s) : StepSound s (roomCacheSet s tok key data ttl now) := by
  unfold roomCacheSet
  rcases hr : lookA tok s.roomObjs with _ | r
  · exact stepSound_core_eq rfl rfl rfl rfl hwf
  · exact stepSound_setRoom' hr rfl rfl rfl rfl rfl hwf

theorem stepSound_roomCacheGet (s : MState) (tok : Nat) (key : String) (now : Nat)
    (hwf : WF s) : StepSound s (roomCacheGet s tok key now).2 := by
  unfold roomCacheGet
  rcases hr : lookA tok s.roomObjs with _ | r
  · exact stepSound_core_eq rfl rfl rfl rfl hwf
  · exact stepSound_setRoom' hr rfl rfl rfl rfl rfl hwf

theorem stepSound_sendCachedOne (s : MState) (tok : Nat) (c : CRef) (now : Nat)
    (key evType rid : String) (hwf : WF s) :
    StepSound s (sendCachedOne s tok c now key evType rid) := by
  unfold sendCachedOne
  rcases hg : roomCacheGet s tok key now with ⟨o, s1⟩
  have h1 : StepSound s s1 := by
    have := stepSound_roomCacheGet s tok key now hwf
    rw [hg] at this
    exact this
  rcases o with _ | d
  · exact h1
  · exact stepSound_trans h1 (fun hwf1 => stepSound_msend s1 c.cid _ hwf1)

theorem stepSound_sendCachedData (s : MState) (tok : Nat) (c : CRef) (now : Nat)
    (rid : String) (hwf : WF s) : StepSound s (sendCachedData s tok c now rid) := by
  unfold sendCachedData
  split
  · exact stepSound_trans (stepSound_sendCachedOne s tok c now "device_info" EventDeviceInfo rid hwf)
      (fun h1 => stepSound_trans
        (stepSound_sendCachedOne _ tok c now "battery" EventBatteryUpdate rid h1)
        (fun h2 => stepSound_trans
          (stepSound_sendCachedOne _ tok c now "storage" EventStorageUpdate rid h2)
          (fun h3 => stepSound_sendCachedOne _ tok c now "downloads" EventDownloadsUpdate rid h3)))
  · exact stepSound_core_eq rfl rfl rfl rfl hwf

theorem stepSound_refl (s : MState) (hwf : WF s) : StepSound s s :=
  stepSound_core_eq rfl rfl rfl rfl hwf

theorem stepSound_setChan {s : MState} {ch : Nat} {st v : ChanSt}
    (hch : lookA ch s.chans = some st) (hcc : st.isClosed = true → v.isClosed = true)
    (hwf : WF s) : StepSound s { s with chans := setA ch v s.chans } := by
  refine ⟨⟨?_, hwf.2⟩, ?_, ?_⟩
  · intro p hp
    rcases mem_setA hp with he | he
    · rw [he]
      exact hwf.1 (ch, st) (lookA_mem hch)
    · exact hwf.1 p he
  · intro ch' st' h hc
    by_cases he : ch' = ch
    · subst he
      rw [h] at hch
      injection hch with hch
      subst hch
      exact ⟨v, lookA_setA_self _ _ _, hcc hc⟩
    · exact ⟨st', by rw [lookA_setA_ne _ _ he]; exact h, hc⟩
  · intro t r h
    exact ⟨r, h, rfl⟩

theorem drainChans_cons (x : String × Nat) (rest : List (String × Nat))
    (cs : List (Nat × ChanSt)) :
    drainChans (x :: rest) cs =
      drainChans rest (match lookA x.2 cs with
                       | none => cs
                       | some st => setA x.2 (drainOne st) cs) := rfl

theorem drainChans_bound (pend : List (String × Nat)) :
    ∀ (cs : List (Nat × ChanSt)) (bound : Nat),
      (∀ p ∈ cs, p.1 < bound) → ∀ p ∈ drainChans pend cs, p.1 < bound := by
  induction pend with
  | nil => intro cs bound h p hp; exact h p hp
  | cons x rest ih =>
    intro cs bound h p hp
    rw [drainChans_cons] at hp
    rcases hl : lookA x.2 cs with _ | st
    · simp only [hl] at hp
      exact ih cs bound h p hp
    · simp only [hl] at hp
      refine ih _ bound ?_ p hp
      intro q hq
      rcases mem_setA hq with he | he
      · rw [he]
        exact h (x.2, st) (lookA_mem hl)
      · exact h q he

theorem drainChans_closed (pend : List (String × Nat)) :
    ∀ (cs : List (Nat × ChanSt)) (ch : Nat) (st : ChanSt),
      lookA ch cs = some st → st.isClosed = true →
      ∃ st', lookA ch (drainChans pend cs) = some st' ∧ st'.isClosed = true := by
  induction pend with
  | nil => intro cs ch st h hc; exact ⟨st, h, hc⟩
  | cons x rest ih =>
    intro cs ch st h hc
    rw [drainChans_cons]
    rcases hl : lookA x.2 cs with _ | stx
    · simp only [hl]
      exact ih cs ch st h hc
    · simp only [hl]
      by_cases he : ch = x.2
      · subst he
        rw [h] at hl
        injection hl with hl
        subst hl
        refine ih _ x.2 (drainOne st) (lookA_setA_self _ _ _) ?_
        cases st <;> simp_all [drainOne, ChanSt.isClosed]
      · exact ih _ ch st (by rw [lookA_setA_ne _ _ he]; exact h) hc

def StepSoundX (s s' : MState) (c : CRef) : Prop :=
  WF s' ∧ ChanPres s s' ∧ ActivePresExcept s s' c

theorem stepSoundX_of_sound {s s' : MState} (c : CRef) (h : StepSound s s') :
    StepSoundX s s' c :=
  ⟨h.1, h.2.1, fun tok r hr =>
    let ⟨r', h', he⟩ := h.2.2 tok r hr
    ⟨r', h', Or.inl he⟩⟩

theorem stepSoundX_trans {s1 s2 s3 : MState} {c : CRef} (h1 : StepSoundX s1 s2 c)
    (h2 : WF s2 → StepSound s2 s3) : StepSoundX s1 s3 c := by
  obtain ⟨hw, hc, ha⟩ := h1
  obtain ⟨hw', hc', ha'⟩ := h2 hw
  refine ⟨hw', chanPres_trans hc hc', ?_⟩
  intro tok r hr
  obtain ⟨r', h', he⟩ := ha tok r hr
  obtain ⟨r'', h'', he'⟩ := ha' tok r' h'
  rcases he with he | ⟨hf, hm⟩
  · exact ⟨r'', h'', Or.inl (he'.trans he)⟩
  · exact ⟨r'', h'', Or.inr ⟨he'.trans hf, hm⟩⟩

theorem stepSoundX_roomRemoveClient (s : MState) (tok : Nat) (c : CRef) (hwf : WF s) :
    StepSoundX s (roomRemoveClient s tok c) c := by
  unfold roomRemoveClient
  rcases hr : lookA tok s.roomObjs with _ | r <;> simp only [hr]
  · exact stepSoundX_of_sound c (stepSound_refl s hwf)
  · rcases hex : lookA c.deviceID r.clients with _ | ex <;> simp only [hex]
    · exact stepSoundX_of_sound c (stepSound_refl s hwf)
    · by_cases hcid : ex.cid = c.cid
      · simp only [hcid, ne_eq, not_true_eq_false, if_false, ite_false]
        cases him : c.deviceID == r.macID with
        | false =>
          simp only [him, Bool.false_eq_true, if_false, ite_false]
          have h1 : StepSound s { s with
              roomObjs := setA tok
                (Room.mk r.token r.id r.macID (eraseA c.deviceID r.clients)
                  r.cache r.pending r.isActive) s.roomObjs,
              backref := eraseA c.cid s.backref } :=
            stepSound_setRoom' hr rfl rfl rfl rfl rfl hwf
          refine stepSoundX_of_sound c (stepSound_trans h1 (fun hwf1 => ?_))
          rcases hgp : Room.getPeer (Room.mk r.token r.id r.macID (eraseA c.deviceID r.clients)
              r.cache r.pending r.isActive) DeviceTypeMac with _ | mac <;> simp only [hgp]
          · exact stepSound_sendList _ _ _ hwf1
          · exact stepSound_trans2 (fun hwf2 => stepSound_msend _ mac.cid _ hwf2)
              (stepSound_sendList _ _ _ hwf1)
        | true =>
          simp only [him, if_true, ite_true]
          have hmac : c.deviceID = r.macID := by
            have := him
            simpa using this
          have h1 : StepSoundX s { s with
              roomObjs := setA tok
                (Room.mk r.token r.id r.macID (eraseA c.deviceID r.clients)
                  r.cache [] false) s.roomObjs,
              backref := eraseA c.cid s.backref,
              chans := drainChans r.pending s.chans } c := by
            refine ⟨⟨?_, ?_⟩, ?_, ?_⟩
            · intro p hp
              exact drainChans_bound r.pending s.chans s.nextChan hwf.1 p hp
            · intro p hp
              rcases mem_setA hp with he | he
              · rw [he]
                exact hwf.2 (tok, r) (lookA_mem hr)
              · exact hwf.2 p he
            · intro ch st h hc
              exact drainChans_closed r.pending s.chans ch st h hc
            · intro t rr h
              by_cases ht : t = tok
              · subst ht
                rw [h] at hr
                injection hr with hr
                subst hr
                exact ⟨_, lookA_setA_self _ _ _, Or.inr ⟨rfl, hmac⟩⟩
              · refine ⟨rr, ?_, Or.inl rfl⟩
                show lookA t (setA tok _ s.roomObjs) = some rr
                rw [lookA_setA_ne _ _ ht]
                exact h
          exact stepSoundX_trans h1 (fun hwf1 => stepSound_sendPairList _ _ _ _ hwf1)
      · simp only [ne_eq, hcid, not_false_eq_true, if_true, ite_true]
        exact stepSoundX_of_sound c (stepSound_refl s hwf)

theorem stepSoundX_managerRemoveClient (s : MState) (c : CRef) (hwf : WF s) :
    StepSoundX s (managerRemoveClient s c) c := by
  unfold managerRemoveClient
  rcases hb : lookA c.cid s.backref with _ | tok <;> simp only [hb]
  · exact stepSoundX_of_sound c (stepSound_refl s hwf)
  · rcases h2 : lookA tok (roomRemoveClient s tok c).roomObjs with _ | r <;> simp only [h2]
    · exact stepSoundX_roomRemoveClient s tok c hwf
    · split
      · exact stepSoundX_trans (stepSoundX_roomRemoveClient s tok c hwf)
          (fun hwf1 => stepSound_core_eq rfl rfl rfl rfl hwf1)
      · exact stepSoundX_roomRemoveClient s tok c hwf

theorem stepSound_actionWaiterRun (s : MState) (cid ch : Nat) (rid reqID : String)
    (hwf : WF s) : StepSound s (actionWaiterRun s cid ch rid reqID) := by
  unfold actionWaiterRun
  rcases hch : lookA ch s.chans with _ | st
  · simp only [hch]
    exact stepSound_refl s hwf
  · cases st with
    | openEmpty =>
      simp only [hch]
      exact stepSound_sendErrorTo s cid _ _ _ hwf
    | closedEmpty =>
      simp only [hch]
      exact stepSound_refl s hwf
    | openFull resp =>
      simp only [hch]
      exact stepSound_trans2 (fun hwf1 => stepSound_msend _ cid _ hwf1)
        (stepSound_setChan hch (fun hcl => by simp [ChanSt.isClosed] at hcl) hwf)
    | closedFull resp =>
      simp only [hch]
      exact stepSound_trans2 (fun hwf1 => stepSound_msend _ cid _ hwf1)
        (stepSound_setChan hch (fun _ => rfl) hwf)

theorem stepSound_genericWaiterRun (s : MState) (c : CRef) (ch : Nat) (reqID : String)
    (hwf : WF s) : StepSound s (genericWaiterRun s c ch reqID) := by
  unfold genericWaiterRun
  rcases hch : lookA ch s.chans with _ | st
  · simp only [hch]
    exact stepSound_refl s hwf
  · cases st with
    | openEmpty =>
      simp only [hch]
      exact stepSound_sendErrorTo s c.cid _ _ _ hwf
    | closedEmpty =>
      simp only [hch]
      exact stepSound_refl s hwf
    | openFull resp =>
      simp only [hch]
      have h1 : StepSound s { s with chans := setA ch ChanSt.openEmpty s.chans } :=
        stepSound_setChan hch (fun hcl => by simp [ChanSt.isClosed] at hcl) hwf
      refine stepSound_trans h1 (fun hwf1 => ?_)
      rcases hcr : clientRoomOf { s with chans := setA ch ChanSt.openEmpty s.chans } c
        with _ | p <;> simp only [hcr]
      · exact stepSound_refl _ hwf1
      · obtain ⟨tk, rr⟩ := p
        exact stepSound_msend _ c.cid _ hwf1
    | closedFull resp =>
      simp only [hch]
      have h1 : StepSound s { s with chans := setA ch ChanSt.closedEmpty s.chans } :=
        stepSound_setChan hch (fun _ => rfl) hwf
      refine stepSound_trans h1 (fun hwf1 => ?_)
      rcases hcr : clientRoomOf { s with chans := setA ch ChanSt.closedEmpty s.chans } c
        with _ | p <;> simp only [hcr]
      · exact stepSound_refl _ hwf1
      · obtain ⟨tk, rr⟩ := p
        exact stepSound_msend _ c.cid _ hwf1

theorem stepSound_joinCore (s : MState) (tok : Nat) (c : CRef) (now : Nat) (rid : String)
    (cid2 : Nat) (ev2 : Event) (hwf : WF s) :
    StepSound s (msend (sendCachedData (roomAddClient s tok c) tok c now rid) cid2 ev2) :=
  stepSound_trans2 (fun h => stepSound_msend _ cid2 ev2 h)
    (stepSound_trans2 (fun h => stepSound_sendCachedData _ tok c now rid h)
      (stepSound_roomAddClient s tok c hwf))

theorem stepSound_handleCreateRoom (s : MState) (ev : Event) (c : CRef) (hwf : WF s) :
    StepSound s (handleCreateRoom s ev c).1 := by
  unfold handleCreateRoom
  split
  · exact stepSound_refl s hwf
  · rcases hg : getRoomM s ev.payload.room_id with _ | ⟨tok, r⟩ <;> simp only [hg]
    · rcases hcr : createRoom s ev.payload.room_id c.deviceID with ⟨s1, tk⟩
      simp only [hcr]
      have h1 : StepSound s s1 := by
        have h := stepSound_createRoom s ev.payload.room_id c.deviceID hwf
        rw [hcr] at h
        exact h
      exact stepSound_trans2 (fun h => stepSound_msend _ c.cid _ h)
        (stepSound_trans2 (fun h => stepSound_msend _ c.cid _ h)
          (stepSound_trans2 (fun h => stepSound_roomAddClient _ tk c h) h1))
    · obtain ⟨hreg, hL, hact⟩ := getRoomM_some hg
      cases how : r.macID == c.deviceID with
      | false => simp only [how, Bool.false_eq_true, if_false, ite_false]
                 exact stepSound_refl s hwf
      | true =>
        simp only [how, if_true, ite_true]
        have h1 : StepSound s { s with
            roomObjs := setA tok { r with isActive := true } s.roomObjs } :=
          stepSound_setRoom' hL rfl rfl hact.symm rfl rfl hwf
        exact stepSound_trans2 (fun h => stepSound_msend _ c.cid _ h)
          (stepSound_trans2 (fun h => stepSound_msend _ c.cid _ h)
            (stepSound_trans2 (fun h => stepSound_roomAddClient _ tok c h) h1))

theorem stepSound_handleJoinRoom (s : MState) (ev : Event) (c : CRef) (now : Nat)
    (hwf : WF s) : StepSound s (handleJoinRoom s ev c now).1 := by
  unfold handleJoinRoom
  rcases hg : getRoomM s ev.payload.room_id with _ | ⟨tok, r⟩ <;> simp only [hg]
  · exact stepSound_refl s hwf
  · split
    · exact stepSound_refl s hwf
    · have h3 := stepSound_joinCore s tok c now r.id c.cid
        { type := EventRoomJoined, roomID := r.id,
          payload := { status := "joined", role := "client" } } hwf
      split
      · rcases h4 : lookA tok (msend (sendCachedData (roomAddClient s tok c) tok c now r.id)
            c.cid { type := EventRoomJoined, roomID := r.id,
                    payload := { status := "joined", role := "client" } }).roomObjs
          with _ | r3 <;> simp only [h4]
        · exact h3
        · rcases hgp : r3.getPeer DeviceTypeMac with _ | mac <;> simp only [hgp]
          · exact h3
          · exact stepSound_trans2 (fun h => stepSound_msend _ mac.cid _ h) h3
      · exact h3

theorem stepSound_handleDeviceInfo (s : MState) (ev : Event) (c : CRef) (now : Nat)
    (hwf : WF s) : StepSound s (handleDeviceInfo s ev c now).1 := by
  unfold handleDeviceInfo
  rcases hcr : clientRoomOf s c with _ | ⟨tok, r⟩ <;> simp only [hcr]
  · exact stepSound_refl s hwf
  · split
    · exact stepSound_refl s hwf
    · exact stepSound_trans2 (fun h => stepSound_broadcastExcept _ tok c.deviceID _ h)
        (stepSound_roomCacheSet s tok _ _ _ now hwf)

theorem stepSound_handleBatteryUpdate (s : MState) (ev : Event) (c : CRef) (now : Nat)
    (hwf : WF s) : StepSound s (handleBatteryUpdate s ev c now).1 := by
  unfold handleBatteryUpdate
  rcases hcr : clientRoomOf s c with _ | ⟨tok, r⟩ <;> simp only [hcr]
  · exact stepSound_refl s hwf
  · exact stepSound_trans2 (fun h => stepSound_broadcastExcept _ tok c.deviceID _ h)
      (stepSound_roomCacheSet s tok _ _ _ now hwf)

theorem stepSound_handleStorageUpdate (s : MState) (ev : Event) (c : CRef) (now : Nat)
    (hwf : WF s) : StepSound s (handleStorageUpdate s ev c now).1 := by
  unfold handleStorageUpdate
  rcases hcr : clientRoomOf s c with _ | ⟨tok, r⟩ <;> simp only [hcr]
  · exact stepSound_refl s hwf
  · exact stepSound_trans2 (fun h => stepSound_broadcastExcept _ tok c.deviceID _ h)
      (stepSound_roomCacheSet s tok _ _ _ now hwf)

theorem stepSound_handleDownloadsUpdate (s : MState) (ev : Event) (c : CRef) (now : Nat)
    (hwf : WF s) : StepSound s (handleDownloadsUpdate s ev c now).1 := by
  unfold handleDownloadsUpdate
  rcases hcr : clientRoomOf s c with _ | ⟨tok, r⟩ <;> simp only [hcr]
  · exact stepSound_refl s hwf
  · exact stepSound_trans2 (fun h => stepSound_broadcastExcept _ tok c.deviceID _ h)
      (stepSound_roomCacheSet s tok _ _ _ now hwf)

theorem stepSound_handleMediaAction (s : MState) (ev : Event) (c : CRef) (hwf : WF s) :
    StepSound s (handleMediaAction s ev c).1 := by
  unfold handleMediaAction
  rcases hcr : clientRoomOf s c with _ | ⟨tok, r⟩ <;> simp only [hcr]
  · exact stepSound_refl s hwf
  · split
    · exact stepSound_refl s hwf
    · split
      · exact stepSound_refl s hwf
      · rcases hgp : r.getPeer DeviceTypeMac with _ | mac <;> simp only [hgp]
        · exact stepSound_sendErrorTo s c.cid _ _ _ hwf
        · exact stepSound_msend s mac.cid _ hwf

theorem stepSound_handleActionRequest (s : MState) (ev : Event) (c : CRef) (hwf : WF s) :
    StepSound s (handleActionRequest s ev c).1 := by
  unfold handleActionRequest
  rcases hcr : clientRoomOf s c with _ | ⟨tok, r⟩ <;> simp only [hcr]
  · exact stepSound_refl s hwf
  · split
    · exact stepSound_refl s hwf
    · split
      · exact stepSound_refl s hwf
      · rcases hgp : r.getPeer DeviceTypeMac with _ | mac <;> simp only [hgp]
        · exact stepSound_sendErrorTo s c.cid _ _ _ hwf
        · split
          · exact stepSound_trans2 (fun h => stepSound_msend _ mac.cid _ h)
              (stepSound_waitForResponse s tok ev.requestID hwf)
          · exact stepSound_msend s mac.cid _ hwf

theorem stepSound_handleActionResult (s : MState) (ev : Event) (c : CRef) (hwf : WF s) :
    StepSound s (handleActionResult s ev c).1 := by
  unfold handleActionResult
  rcases hcr : clientRoomOf s c with _ | ⟨tok, r⟩ <;> simp only [hcr]
  · exact stepSound_refl s hwf
  · split
    · exact stepSound_refl s hwf
    · exact stepSound_fulfillResponse s tok ev hwf

theorem stepSound_handleRoomStatus (s : MState) (c : CRef) (hwf : WF s) :
    StepSound s (handleRoomStatus s c).1 := by
  unfold handleRoomStatus
  rcases hcr : clientRoomOf s c with _ | p <;> simp only [hcr]
  · exact stepSound_msend s c.cid _ hwf
  · exact stepSound_msend s c.cid _ hwf

theorem stepSound_handleGenericRequest (s : MState) (ev : Event) (c : CRef) (now : Nat)
    (hwf : WF s) : StepSound s (handleGenericRequest s ev c now).1 := by
  unfold handleGenericRequest
  rcases hcr : clientRoomOf s c with _ | ⟨tok, r⟩ <;> simp only [hcr]
  · exact stepSound_refl s hwf
  · split
    · exact stepSound_refl s hwf
    · rcases hhs : (match (match ev.payload.action with
          | "get_device_info" => some "device_info"
          | "get_battery" => some "battery"
          | _ => none : Option String) with
        | none => ((none : Option Payload), s)
        | some key => roomCacheGet s tok key now) with ⟨o, s1⟩
      have h1 : StepSound s s1 := by
        rcases hpr : (match ev.payload.action with
            | "get_device_info" => some "device_info"
            | "get_battery" => some "battery"
            | _ => none : Option String) with _ | key
        · rw [hpr] at hhs
          have hps : ((none : Option Payload), s) = (o, s1) := hhs
          injection hps with hps1 hps2
          rw [← hps2]
          exact stepSound_refl s hwf
        · rw [hpr] at hhs
          have hps : roomCacheGet s tok key now = (o, s1) := hhs
          have h := stepSound_roomCacheGet s tok key now hwf
          rw [hps] at h
          exact h
      rcases o with _ | data
      · simp only [hhs]
        rcases ht : (if c.deviceType == DeviceTypeWatch then r.getPeer DeviceTypeMac
            else r.getPeer DeviceTypeWatch) with _ | t <;> simp only [ht]
        · exact stepSound_trans h1 (fun h => stepSound_sendErrorTo _ c.cid _ _ _ h)
        · exact stepSound_trans2 (fun h => stepSound_msend _ t.cid ev h)
            (stepSound_trans2 (fun h => stepSound_waitForResponse _ tok ev.requestID h) h1)
      · simp only [hhs]
        exact stepSound_trans h1 (fun h => stepSound_msend _ c.cid _ h)

theorem stepSound_handleResponse (s : MState) (ev : Event) (c : CRef) (hwf : WF s) :
    StepSound s (handleResponse s ev c).1 := by
  unfold handleResponse
  rcases hcr : clientRoomOf s c with _ | ⟨tok, r⟩ <;> simp only [hcr]
  · exact stepSound_refl s hwf
  · exact stepSound_fulfillResponse s tok ev hwf

theorem stepSound_routeEvent (s : MState) (ev : Event) (c : CRef) (now : Nat) (hwf : WF s) :
    StepSound s (routeEvent s ev c now).1 := by
  unfold routeEvent
  by_cases h1 : (ev.type == EventRoomStatus) = true
  · rw [if_pos h1]; exact stepSound_handleRoomStatus s c hwf
  rw [if_neg h1]
  by_cases h2 : (ev.type == EventCreateRoom) = true
  · rw [if_pos h2]; exact stepSound_handleCreateRoom s ev c hwf
  rw [if_neg h2]
  by_cases h3 : (ev.type == EventJoinRoom) = true
  · rw [if_pos h3]; exact stepSound_handleJoinRoom s ev c now hwf
  rw [if_neg h3]
  by_cases h4 : (ev.type == EventDeviceInfo) = true
  · rw [if_pos h4]; exact stepSound_handleDeviceInfo s ev c now hwf
  rw [if_neg h4]
  by_cases h5 : (ev.type == EventBatteryUpdate) = true
  · rw [if_pos h5]; exact stepSound_handleBatteryUpdate s ev c now hwf
  rw [if_neg h5]
  by_cases h6 : (ev.type == EventStorageUpdate) = true
  · rw [if_pos h6]; exact stepSound_handleStorageUpdate s ev c now hwf
  rw [if_neg h6]
  by_cases h7 : (ev.type == EventDownloadsUpdate) = true
  · rw [if_pos h7]; exact stepSound_handleDownloadsUpdate s ev c now hwf
  rw [if_neg h7]
  by_cases h8 : (ev.type == EventActionRequest) = true
  · rw [if_pos h8]; exact stepSound_handleActionRequest s ev c hwf
  rw [if_neg h8]
  by_cases h9 : (ev.type == EventMediaAction) = true
  · rw [if_pos h9]; exact stepSound_handleMediaAction s ev c hwf
  rw [if_neg h9]
  by_cases h10 : (ev.type == EventActionResult) = true
  · rw [if_pos h10]; exact stepSound_handleActionResult s ev c hwf
  rw [if_neg h10]
  by_cases h11 : (ev.type == EventRequest) = true
  · rw [if_pos h11]; exact stepSound_handleGenericRequest s ev c now hwf
  rw [if_neg h11]
  by_cases h12 : (ev.type == EventResponse) = true
  · rw [if_pos h12]; exact stepSound_handleResponse s ev c hwf
  rw [if_neg h12]
  exact stepSound_refl s hwf

theorem applyOp_sound (l : Op) (s : MState) (hwf : WF s) :
    WF (applyOp l s) ∧ ChanPres s (applyOp l s) ∧
    (∀ tok r, lookA tok s.roomObjs = some r →
      ∃ r', lookA tok (applyOp l s).roomObjs = some r' ∧
        (r'.isActive = r.isActive ∨
         (r'.isActive = false ∧ ∃ c, l = Op.disconnect c ∧ c.deviceID = r.macID))) := by
  have pack : ∀ s' : MState, StepSound s s' →
      WF s' ∧ ChanPres s s' ∧
      (∀ tok r, lookA tok s.roomObjs = some r →
        ∃ r', lookA tok s'.roomObjs = some r' ∧
          (r'.isActive = r.isActive ∨
           (r'.isActive = false ∧ ∃ c, l = Op.disconnect c ∧ c.deviceID = r.macID))) := by
    intro s' h
    refine ⟨h.1, h.2.1, fun tok r hr => ?_⟩
    obtain ⟨r', h', he⟩ := h.2.2 tok r hr
    exact ⟨r', h', Or.inl he⟩
  cases l with
  | connect c => exact pack _ (stepSound_connectClient s c hwf)
  | route ev c now =>
    rcases hre : routeEvent s ev c now with ⟨s1, e⟩
    have hS : StepSound s s1 := by
      have h := stepSound_routeEvent s ev c now hwf
      rw [hre] at h
      exact h
    rcases e with _ | msg
    · have happ : applyOp (Op.route ev c now) s = s1 := by
        simp only [applyOp, hre]
      rw [happ]
      exact pack s1 hS
    · have happ : applyOp (Op.route ev c now) s =
          sendErrorTo s1 c.cid ev.requestID "routing_error" msg := by
        simp only [applyOp, hre]
      rw [happ]
      exact pack _ (stepSound_trans hS (fun h1 => stepSound_sendErrorTo s1 c.cid _ _ _ h1))
  | disconnect c =>
    have h := stepSoundX_managerRemoveClient s c hwf
    refine ⟨h.1, h.2.1, fun tok r hr => ?_⟩
    obtain ⟨r', h', he⟩ := h.2.2 tok r hr
    rcases he with he | ⟨hf, hm⟩
    · exact ⟨r', h', Or.inl he⟩
    · exact ⟨r', h', Or.inr ⟨hf, c, rfl, hm⟩⟩
  | pingerTick c => exact pack _ (stepSound_statusPingerTick s c hwf)
  | writer cid => exact pack _ (stepSound_writerTick s cid hwf)
  | actionWaiter cid ch rid reqID =>
    exact pack _ (stepSound_actionWaiterRun s cid ch rid reqID hwf)
  | genericWaiter c ch reqID =>
    exact pack _ (stepSound_genericWaiterRun s c ch reqID hwf)

theorem reaches_sound (s s' : MState) (hwf : WF s) (h : Reaches s s') :
    WF s' ∧ ChanPres s s' ∧
    (∀ tok r, lookA tok s.roomObjs = some r → r.isActive = false →
      ∃ r', lookA tok s'.roomObjs = some r' ∧ r'.isActive = false) := by
  induction h with
  | refl => exact ⟨hwf, chanPres_refl s, fun tok r hr hf => ⟨r, hr, hf⟩⟩
  | tail hab hbc ih =>
    obtain ⟨hwfb, hcb, hib⟩ := ih
    obtain ⟨l, rfl⟩ := hbc
    have hs := applyOp_sound l _ hwfb
    refine ⟨hs.1, chanPres_trans hcb hs.2.1, ?_⟩
    intro tok r hr hf
    obtain ⟨r1, h1, hf1⟩ := hib tok r hr hf
    obtain ⟨r2, h2, he2⟩ := hs.2.2 tok r1 h1
    rcases he2 with he2 | ⟨hf2, _⟩
    · exact ⟨r2, h2, he2.trans hf1⟩
    · exact ⟨r2, h2, hf2⟩

/-! ## Claim C7 -/

/-- C7: `is_active` transitions from true to false only when the host (the
client whose device id equals the room's `macID`) is removed via a
disconnect; in any well-formed state it never transitions back from false to
true, along single steps and along any reachable sequence of steps; and once
a room object is inactive no `join_room` resolves to it — `getRoom` never
returns it (any resolution picks a different room object) and when the
registry has no active room for the id, `join_room` fails with "room not
found or inactive". -/
theorem C7_isActive_monotone :
    (∀ (s : MState) (l : Op) (tok : Nat) (r : Room), WF s →
       lookA tok s.roomObjs = some r → r.isActive = false →
       ∃ r', lookA tok (applyOp l s).roomObjs = some r' ∧ r'.isActive = false) ∧
    (∀ (s s' : MState) (tok : Nat) (r : Room), WF s → Reaches s s' →
       lookA tok s.roomObjs = some r → r.isActive = false →
       ∃ r', lookA tok s'.roomObjs = some r' ∧ r'.isActive = false) ∧
    (∀ (s : MState) (l : Op) (tok : Nat) (r r' : Room), WF s →
       lookA tok s.roomObjs = some r → r.isActive = true →
       lookA tok (applyOp l s).roomObjs = some r' → r'.isActive = false →
       ∃ c, l = Op.disconnect c ∧ c.deviceID = r.macID) ∧
    (∀ (s : MState) (rid : String) (tok : Nat) (r : Room) (tok' : Nat) (r' : Room),
       lookA tok s.roomObjs = some r → r.isActive = false →
       getRoomM s rid = some (tok', r') → tok' ≠ tok) ∧
    (∀ (s : MState) (ev : Event) (c : CRef) (now : Nat),
       getRoomM s ev.payload.room_id = none →
       handleJoinRoom s ev c now = (s, some "room not found or inactive")) := by
  refine ⟨?_, ?_, ?_, ?_, ?_⟩
  · intro s l tok r hwf hr hf
    obtain ⟨r', h', he⟩ := (applyOp_sound l s hwf).2.2 tok r hr
    rcases he with he | ⟨hf', _⟩
    · exact ⟨r', h', he.trans hf⟩
    · exact ⟨r', h', hf'⟩
  · intro s s' tok r hwf hre hr hf
    exact (reaches_sound s s' hwf hre).2.2 tok r hr hf
  · intro s l tok r r' hwf hr hact h' hf
    obtain ⟨r'', h'', he⟩ := (applyOp_sound l s hwf).2.2 tok r hr
    rw [h'] at h''
    injection h'' with h''
    subst h''
    rcases he with he | ⟨_, c, hl, hm⟩
    · rw [hf] at he
      rw [hact] at he
      cases he
    · exact ⟨c, hl, hm⟩
  · intro s rid tok r tok' r' hr hf hg heq
    obtain ⟨_, hL, hact⟩ := getRoomM_some hg
    subst heq
    rw [hr] at hL
    injection hL with hL
    subst hL
    rw [hf] at hact
    cases hact
  · intro s ev c now hg
    unfold handleJoinRoom
    rw [hg]

def c7Room : Room :=
  { token := 0, id := "R", macID := "M", clients := [], cache := [],
    pending := [], isActive := false }

def c7S : MState := { roomObjs := [(0, c7Room)], nextToken := 1 }

theorem C7_isActive_monotone_witness :
    ∃ r', lookA 0 (applyOp (Op.writer 3) c7S).roomObjs = some r' ∧ r'.isActive = false :=
  C7_isActive_monotone.1 c7S (Op.writer 3) 0 c7Room ⟨by decide, by decide⟩ (by decide) (by decide)

/-! ## Claim C2 -/

/-- C2 (amended): a pending-table channel is closed at most once — in any
well-formed state closedness of a channel is monotone along every step
sequence (a closed channel is never reopened, so the fulfilment close and
the host-departure close can never both apply to the same channel) — but the
30-second timeout does not close the channel and does not remove the pending
entry: when the waiter's select resolves by timeout (channel still open and
empty), the room objects (hence the pending table) and the channel store are
left unchanged, and only `error{timeout}` is sent to the requester.  An
entry that is neither fulfilled nor drained by host departure keeps an open
channel forever. -/
theorem C2_channel_closed_monotone :
    (∀ (s s' : MState) (ch : Nat) (st : ChanSt), WF s → Reaches s s' →
       lookA ch s.chans = some st → st.isClosed = true →
       ∃ st', lookA ch s'.chans = some st' ∧ st'.isClosed = true) ∧
    (∀ (s : MState) (cid ch : Nat) (rid reqID : String),
       lookA ch s.chans = some ChanSt.openEmpty →
       (actionWaiterRun s cid ch rid reqID).chans = s.chans ∧
       (actionWaiterRun s cid ch rid reqID).roomObjs = s.roomObjs) ∧
    (∀ (s : MState) (c : CRef) (ch : Nat) (reqID : String),
       lookA ch s.chans = some ChanSt.openEmpty →
       (genericWaiterRun s c ch reqID).chans = s.chans ∧
       (genericWaiterRun s c ch reqID).roomObjs = s.roomObjs) := by
  refine ⟨?_, ?_, ?_⟩
  · intro s s' ch st hwf hre hch hc
    exact (reaches_sound s s' hwf hre).2.1 ch st hch hc
  · intro s cid ch rid reqID hch
    unfold actionWaiterRun
    simp only [hch]
    exact ⟨rfl, rfl⟩
  · intro s c ch reqID hch
    unfold genericWaiterRun
    simp only [hch]
    exact ⟨rfl, rfl⟩

def c2S : MState := { chans := [(0, ChanSt.closedEmpty)], nextChan := 1 }

theorem C2_channel_closed_monotone_witness :
    ∃ st', lookA 0 c2S.chans = some st' ∧ st'.isClosed = true :=
  C2_channel_closed_monotone.1 c2S c2S 0 ChanSt.closedEmpty ⟨by decide, by decide⟩
    Relation.ReflTransGen.refl (by decide) (by decide)

/-! ## Claim C1 -/

/-- C1 (amended): the response waiter spawned by `handleActionRequest`
relays a fulfilled value as `action_result` and reports `error{timeout}`
when the 30-second timer fires on a still-open empty channel; but when the
channel was closed without a value (host departure drains the pending
table), the waiter observes `ok = false` and exits without sending anything:
the requester receives no reply at all for that request id. -/
theorem C1_waiter_reply_amended (s : MState) (cid ch : Nat) (rid reqID : String) (st : CState)
    (hses : lookA cid s.sessions = some st)
    (hdone : st.done = false) (hlen : st.egress.length < egressCap) :
    (∀ resp, lookA ch s.chans = some (ChanSt.closedFull resp) →
       ∃ st', lookA cid (actionWaiterRun s cid ch rid reqID).sessions = some st' ∧
         st'.egress = st.egress ++
           [{ type := EventActionResult, requestID := resp.requestID, roomID := rid,
              payload := resp.payload }]) ∧
    (lookA ch s.chans = some ChanSt.openEmpty →
       ∃ st', lookA cid (actionWaiterRun s cid ch rid reqID).sessions = some st' ∧
         st'.egress = st.egress ++ [errEvent reqID "timeout" "Mac did not respond in time"]) ∧
    (lookA ch s.chans = some ChanSt.closedEmpty →
       actionWaiterRun s cid ch rid reqID = s) := by
  refine ⟨?_, ?_, ?_⟩
  · intro resp hch
    unfold actionWaiterRun
    simp only [hch, msend_sessions_map]
    refine ⟨{ st with egress := st.egress ++
      [{ type := EventActionResult, requestID := resp.requestID, roomID := rid,
         payload := resp.payload }] }, ?_, rfl⟩
    show (lookA cid s.sessions).map _ = _
    rw [hses]
    simp [csend_app _ hdone hlen]
  · intro hch
    unfold actionWaiterRun
    simp only [hch]
    unfold sendErrorTo
    simp only [msend_sessions_map]
    refine ⟨{ st with egress := st.egress ++
      [errEvent reqID "timeout" "Mac did not respond in time"] }, ?_, rfl⟩
    show (lookA cid s.sessions).map _ = _
    rw [hses]
    simp [csend_app _ hdone hlen]
  · intro hch
    unfold actionWaiterRun
    simp only [hch]

def w1Resp : Event :=
  { type := EventActionResult, requestID := "q1", payload := { raw := "ok" } }

def w1S : MState :=
  { chans := [(0, ChanSt.closedFull w1Resp)], nextChan := 1, sessions := [(1, {})] }

theorem C1_waiter_reply_amended_witness :
    ∃ st', lookA 1 (actionWaiterRun w1S 1 0 "R" "q1").sessions = some st' ∧
      st'.egress = ([] : List Event) ++
        [{ type := EventActionResult, requestID := w1Resp.requestID, roomID := "R",
           payload := w1Resp.payload }] :=
  (C1_waiter_reply_amended w1S 1 0 "R" "q1" {} rfl rfl (by decide)).1 w1Resp rfl

def cxHost : CRef := ⟨0, "M", "mac"⟩
def cxWatch : CRef := ⟨1, "W", "watch"⟩
def cxEvCreate : Event := { type := EventCreateRoom, payload := { room_id := "R" } }
def cxEvJoin : Event := { type := EventJoinRoom, payload := { room_id := "R" } }
def cxEvReq : Event := { type := EventActionRequest, requestID := "q1", payload := { action := "sleep" } }

def cxS0 : MState := applyOp (Op.connect cxWatch) (applyOp (Op.connect cxHost) initState)
def cxS1 : MState := applyOp (Op.route cxEvCreate cxHost 0) cxS0
def cxS2 : MState := applyOp (Op.route cxEvJoin cxWatch 0) cxS1
def cxS3 : MState := applyOp (Op.route cxEvReq cxWatch 0) cxS2
def cxS4 : MState := applyOp (Op.disconnect cxHost) cxS3
def cxS5 : MState := applyOp (Op.actionWaiter 1 0 "R" "q1") cxS4

/-- An event that counts as a reply to a pending request: an `action_result`,
a `response`, or a timeout error. -/
def replyEvent (e : Event) : Bool :=
  e.type == EventActionResult || e.type == EventResponse ||
  (e.type == EventError && e.payload.code == "timeout")

/-- C1 counterexample: after create/join/action_request, request `q1` is
pending on channel 0 (`cxS3`); the mac host then disconnects, which drains
the pending table and closes channel 0 without a value (`cxS4`); when the
waiter for `q1` subsequently runs it observes the closed-empty channel and
exits without sending anything (`cxS5 = cxS4`), so the watch's egress
contains no `action_result`, no `response` and no timeout error: the
requester never receives any reply for `q1`, contradicting the claim that
every action_request is answered exactly once. -/
theorem C1_counterexample :
    ((lookA 0 cxS3.roomObjs).map (fun r => lookA "q1" r.pending)) = some (some 0) ∧
    lookA 0 cxS4.chans = some ChanSt.closedEmpty ∧
    cxS5 = cxS4 ∧
    (lookA 1 cxS5.sessions).map (fun st => st.egress.filter replyEvent) = some [] :=
  ⟨rfl, rfl, rfl, rfl⟩

def c2to : MState := applyOp (Op.actionWaiter 1 0 "R" "q1") cxS3

/-- C2 counterexample: at `cxS3` request `q1` is pending on channel 0 and the
channel is open and empty; the 30-second timeout then fires (the waiter's
`<-time.After` branch). The timeout path only sends a timeout error to the
requester: it neither closes the response channel nor deletes the pending
entry, so after the timeout the channel is still open and `q1` is still in
the room's pending table — contradicting the claim that the channel is
closed and the entry removed when the timeout fires. -/
theorem C2_counterexample :
    lookA 0 cxS3.chans = some ChanSt.openEmpty ∧
    ((lookA 0 cxS3.roomObjs).map (fun r => lookA "q1" r.pending)) = some (some 0) ∧
    lookA 0 c2to.chans = some ChanSt.openEmpty ∧
    ((lookA 0 c2to.roomObjs).map (fun r => lookA "q1" r.pending)) = some (some 0) :=
  ⟨rfl, rfl, rfl, rfl⟩
